import Mathlib

/-!
# Verification of the poco-agent control-plane core

A shallow embedding, in Lean 4, of the backend services of the poco-agent
repository (`src/backend/app/services` and `src/backend/app/utils`), together
with theorems settling the frozen claims about the specification.

Conventions of the embedding:

* Python `dict[str, Any]` values become `JVal` (a JSON-like value type);
  Python dicts preserve insertion order, so objects are association lists
  with Python-dict update semantics (`dictSet`, `dictPop`, `dictUnion`).
* Database rows become Lean structures; a table is a list of rows, in
  insertion order (`session_db.add` appends).  An ORM in-place mutation of a
  fetched row is modelled as a conditional map over the table (the fetched
  objects are exactly the rows satisfying the query predicate), and an
  in-place mutation of the *first* match (`.first()`) as `updateFirst`.
* `datetime.now(timezone.utc)` becomes an explicit `now : Int` parameter
  (milliseconds); a timezone database becomes an explicit
  `tzdb : String → Option Int` parameter giving each zone's UTC offset in
  milliseconds (`ZoneInfo` lookup failure = `none`).
* Raised `AppException`s become `Except AppError`; each `db.commit()`
  appends a snapshot of the database to a commit trace, so that claims about
  transaction boundaries are statable.
* Line splitting of markdown documents is modelled on `"\n"` (the
  line-based logic of the source is independent of which separator
  `str.splitlines` saw).
-/

namespace PocoAgent

/-! ## Python primitives -/

/-- Python `\s` whitespace (ASCII range), as used by `str.strip`, `str.lstrip`
and the `re` module in the source. -/
def isPySpace (c : Char) : Bool :=
  c = ' ' || c = '\t' || c = '\n' || c = '\r' || c = Char.ofNat 11 || c = Char.ofNat 12

/-- Python `str.strip()`. -/
def pyStrip (s : String) : String :=
  String.mk ((s.toList.dropWhile isPySpace).reverse.dropWhile isPySpace |>.reverse)

/-- Whether `sub` occurs at the head of `l`. -/
def matchesHere : List Char → List Char → Bool
  | [], _ => true
  | _ :: _, [] => false
  | a :: as, b :: bs => a = b && matchesHere as bs

/-- Whether `sub` occurs anywhere in `l`. -/
def containsSub (sub : List Char) : List Char → Bool
  | [] => matchesHere sub []
  | c :: rest => matchesHere sub (c :: rest) || containsSub sub rest

/-- Python `sub in s` substring containment. -/
def pyContains (s sub : String) : Bool :=
  containsSub sub.toList s.toList

/-- JSON-like values standing in for Python `Any` payloads
(`dict[str, Any]`, message blocks, config snapshots…).  Objects keep
insertion order, as Python dicts do. -/
inductive JVal where
  | null : JVal
  | bool : Bool → JVal
  | num : Int → JVal
  | str : String → JVal
  | arr : List JVal → JVal
  | obj : List (String × JVal) → JVal
deriving Repr

/-- Python truthiness of a `JVal` (`None`, `False`, `0`, `""`, `[]`, `{}`
are falsy). -/
def pyTruthy : JVal → Bool
  | .null => false
  | .bool b => b
  | .num n => n ≠ 0
  | .str s => ¬ s.isEmpty
  | .arr xs => ¬ xs.isEmpty
  | .obj fields => ¬ fields.isEmpty

abbrev JDict := List (String × JVal)

/-- `d.get(k)` on a Python dict: first binding of `k` (bindings are unique in
a real dict; first-match is the faithful reading for association lists). -/
def dictGet (d : JDict) (k : String) : Option JVal :=
  (d.find? (fun p => p.1 = k)).map (·.2)

/-- `d[k] = v` on a Python dict: update in place when present, else append. -/
def dictSet (d : JDict) (k : String) (v : JVal) : JDict :=
  if (d.find? (fun p => p.1 = k)).isSome then
    d.map (fun p => if p.1 = k then (k, v) else p)
  else d ++ [(k, v)]

/-- `d.pop(k, None)` on a Python dict (the removal effect). -/
def dictPop (d : JDict) (k : String) : JDict :=
  d.filter (fun p => p.1 ≠ k)

/-- `{**a, **b}` on Python dicts. -/
def dictUnion (a b : JDict) : JDict :=
  b.foldl (fun acc p => dictSet acc p.1 p.2) a

/-- `k in d` on a Python dict. -/
def dictMem (d : JDict) (k : String) : Bool :=
  (d.find? (fun p => p.1 = k)).isSome

/-- Update the first element satisfying `p` (ORM `.first()` fetch followed by
an in-place mutation of the fetched row). -/
def updateFirst {α : Type} (p : α → Bool) (f : α → α) : List α → List α
  | [] => []
  | x :: xs => if p x then f x :: xs else x :: updateFirst p f xs

/-! ## `app/utils/markdown_front_matter.py` -/

/-- The regex `^\s*model\s*:` (case-insensitive) from
`markdown_front_matter._MODEL_KEY_PATTERN`, applied to one line. -/
def matchesModelKey (line : String) : Bool :=
  match (line.toList.map Char.toLower).dropWhile isPySpace with
  | 'm' :: 'o' :: 'd' :: 'e' :: 'l' :: rest =>
      (rest.dropWhile isPySpace).head? = some ':'
  | _ => false

/-- `len(line) - len(line.lstrip())`: the indentation width of a line. -/
def indentOf (line : String) : Nat :=
  (line.toList.takeWhile isPySpace).length

/-- `line.split(":", 1)[1].strip() if ":" in line else ""`. -/
def remainderAfterColon (line : String) : String :=
  match line.toList.dropWhile (· ≠ ':') with
  | [] => ""
  | _ :: rest => pyStrip (String.mk rest)

/-- Whether a matched `model` line opens a block value
(`remainder == "" or remainder.startswith(("|", ">"))`). -/
def isBlockModel (line : String) : Bool :=
  let r := remainderAfterColon line
  r.isEmpty || r.toList.head? = some '|' || r.toList.head? = some '>'

/-- The inner `while` of `remove_model_from_yaml_front_matter`: skip blank
lines and continuation lines more indented than the removed `model` key,
returning the remaining front-matter lines. -/
def skipContinuation (indent : Nat) : List String → List String
  | [] => []
  | l :: rest =>
    if (pyStrip l).isEmpty then skipContinuation indent rest
    else if indentOf l ≤ indent then l :: rest
    else skipContinuation indent rest

theorem skipContinuation_length_le (indent : Nat) :
    ∀ ls : List String, (skipContinuation indent ls).length ≤ ls.length := by
  intro ls
  induction ls with
  | nil => simp [skipContinuation]
  | cons l rest ih =>
    simp only [skipContinuation]
    split
    · exact Nat.le_trans ih (Nat.le_succ _)
    · split
      · exact Nat.le_refl _
      · exact Nat.le_trans ih (Nat.le_succ _)

/-- The main filtering loop over the front-matter lines: drop every line
matching the `model` pattern, together with the continuation lines of block
values.  Structured with explicit fuel so that it evaluates by reduction;
`filterFront` supplies enough fuel for the loop to run to completion. -/
def filterFrontAux : Nat → List String → List String
  | _, [] => []
  | 0, ls => ls
  | fuel + 1, l :: rest =>
    if matchesModelKey l then
      if isBlockModel l then
        filterFrontAux fuel (skipContinuation (indentOf l) rest)
      else
        filterFrontAux fuel rest
    else
      l :: filterFrontAux fuel rest

/-- The `while i < len(front)` filtering loop of
`remove_model_from_yaml_front_matter`. -/
def filterFront (front : List String) : List String :=
  filterFrontAux front.length front

/-- Locate the closing `---` delimiter: returns the lines before it and the
lines after it (`front`, `body`). -/
def splitAtDelim : List String → Option (List String × List String)
  | [] => none
  | l :: rest =>
    if pyStrip l = "---" then some ([], rest)
    else (splitAtDelim rest).map (fun p => (l :: p.1, p.2))

/-- Front-matter recognition on a split document: the first line must strip
to `---` and a closing `---` must exist. -/
def parseFrontMatter (lines : List String) : Option (List String × List String) :=
  match lines with
  | [] => none
  | first :: rest =>
    if pyStrip first = "---" then splitAtDelim rest else none

/-- The line-level body of `remove_model_from_yaml_front_matter`: documents
without well-formed front matter pass through unchanged; otherwise the front
matter is filtered and the document rebuilt. -/
def renderLines (lines : List String) : List String :=
  match parseFrontMatter lines with
  | none => lines
  | some (front, body) => "---" :: (filterFront front ++ "---" :: body)

/-- Python `str.splitlines` restricted to `"\n"` separators (see module
conventions). -/
def splitlines (s : String) : List String :=
  if s.isEmpty then []
  else
    let parts := s.splitOn "\n"
    if s.toList.getLast? = some '\n' then parts.dropLast else parts

/-- Python `str.rstrip()`. -/
def pyRstrip (s : String) : String :=
  String.mk (s.toList.reverse.dropWhile isPySpace |>.reverse)

/-- `"\n".join(lines)`. -/
def joinLines (lines : List String) : String :=
  String.intercalate "\n" lines

/-- `remove_model_from_yaml_front_matter` from
`app/utils/markdown_front_matter.py`.  The BOM is a one-character prefix
`﻿`. -/
def remove_model_from_yaml_front_matter (markdown : String) : String :=
  if markdown.isEmpty then ""
  else
    let text := if markdown.toList.head? = some (Char.ofNat 0xFEFF)
      then String.mk markdown.toList.tail else markdown
    let lines := splitlines text
    match parseFrontMatter lines with
    | none => markdown
    | some (front, body) =>
        pyRstrip (joinLines ("---" :: (filterFront front ++ "---" :: body))) ++ "\n"

/-! ### Lemmas about the model-field stripper -/

theorem skipContinuation_sublist (ind : Nat) (ls : List String) :
    (skipContinuation ind ls).Sublist ls := by
  induction ls with
  | nil => simp [skipContinuation]
  | cons l rest ih =>
    simp only [skipContinuation]
    split
    · exact ih.cons l
    · split
      · exact List.Sublist.refl _
      · exact ih.cons l

theorem filterFrontAux_sublist (fuel : Nat) :
    ∀ ls : List String, (filterFrontAux fuel ls).Sublist ls := by
  induction fuel with
  | zero =>
    intro ls
    cases ls <;> simp [filterFrontAux]
  | succ fuel ih =>
    intro ls
    cases ls with
    | nil => simp [filterFrontAux]
    | cons l rest =>
      simp only [filterFrontAux]
      split
      · split
        · exact ((ih _).trans (skipContinuation_sublist _ _)).cons l
        · exact (ih rest).cons l
      · exact (ih rest).cons₂ l

theorem filterFront_sublist (front : List String) :
    (filterFront front).Sublist front :=
  filterFrontAux_sublist front.length front

theorem mem_filterFrontAux_not_model (fuel : Nat) :
    ∀ ls : List String, ls.length ≤ fuel →
      ∀ l ∈ filterFrontAux fuel ls, matchesModelKey l = false := by
  induction fuel with
  | zero =>
    intro ls hlen
    cases ls with
    | nil => simp [filterFrontAux]
    | cons l rest => simp at hlen
  | succ fuel ih =>
    intro ls hlen
    cases ls with
    | nil => simp [filterFrontAux]
    | cons l rest =>
      have hrest : rest.length ≤ fuel := Nat.le_of_succ_le_succ hlen
      simp only [filterFrontAux]
      split
      · split
        · exact ih _ (Nat.le_trans (skipContinuation_length_le _ _) hrest)
        · exact ih rest hrest
      · rename_i hm
        intro x hx
        rcases List.mem_cons.mp hx with h | h
        · subst h; simpa using hm
        · exact ih rest hrest x h

theorem mem_filterFront_not_model (front : List String) :
    ∀ l ∈ filterFront front, matchesModelKey l = false :=
  mem_filterFrontAux_not_model front.length front (Nat.le_refl _)

theorem filterFrontAux_of_no_model (fuel : Nat) :
    ∀ ls : List String, (∀ l ∈ ls, matchesModelKey l = false) →
      filterFrontAux fuel ls = ls := by
  induction fuel with
  | zero =>
    intro ls _
    cases ls <;> simp [filterFrontAux]
  | succ fuel ih =>
    intro ls h
    cases ls with
    | nil => simp [filterFrontAux]
    | cons l rest =>
      have hl : matchesModelKey l = false := h l (List.mem_cons_self _ _)
      simp only [filterFrontAux, hl, Bool.false_eq_true, if_false, List.cons.injEq, true_and]
      exact ih rest (fun x hx => h x (List.mem_cons_of_mem _ hx))

theorem filterFront_of_no_model (front : List String)
    (h : ∀ l ∈ front, matchesModelKey l = false) :
    filterFront front = front :=
  filterFrontAux_of_no_model front.length front h

theorem splitAtDelim_front_no_delim :
    ∀ (ls front body : List String), splitAtDelim ls = some (front, body) →
      ∀ l ∈ front, pyStrip l ≠ "---" := by
  intro ls
  induction ls with
  | nil => intro front body h; simp [splitAtDelim] at h
  | cons l rest ih =>
    intro front body h
    simp only [splitAtDelim] at h
    split at h
    · simp only [Option.some.injEq, Prod.mk.injEq] at h
      rcases h with ⟨h1, _⟩
      subst h1; simp
    · rename_i hne
      rcases Option.map_eq_some'.mp h with ⟨⟨f, b⟩, hfb, heq⟩
      simp only [Prod.mk.injEq] at heq
      rcases heq with ⟨h1, h2⟩
      subst h1; subst h2
      intro x hx
      rcases List.mem_cons.mp hx with h | h
      · subst h; exact hne
      · exact ih f b hfb x h

theorem splitAtDelim_append (xs rest : List String) (d : String)
    (h : ∀ l ∈ xs, pyStrip l ≠ "---") (hd : pyStrip d = "---") :
    splitAtDelim (xs ++ d :: rest) = some (xs, rest) := by
  induction xs with
  | nil => simp [splitAtDelim, hd]
  | cons x xs ih =>
    have hx : pyStrip x ≠ "---" := h x (List.mem_cons_self _ _)
    simp only [List.cons_append, splitAtDelim, hx, if_false, List.append_eq]
    rw [ih (fun l hl => h l (List.mem_cons_of_mem _ hl))]
    rfl

theorem pyStrip_dashes : pyStrip "---" = "---" := by decide

/-- **C6.** For every markdown document with well-formed YAML front matter,
the slash-command rendering (`remove_model_from_yaml_front_matter`, stated on
its line-level body `renderLines`) contains no `model:` key in its front
matter: re-parsing the rendered document yields exactly the filtered front
matter and the untouched body; every rendered front-matter line fails the
`model` key pattern (plain lines, block scalars and their more-indented
continuation lines are all removed); and whenever the input front matter has
no `model:` key at all, it is preserved verbatim. -/
theorem C6_model_strip_front_matter
    (lines front body : List String)
    (h : parseFrontMatter lines = some (front, body)) :
    parseFrontMatter (renderLines lines) = some (filterFront front, body)
    ∧ (∀ l ∈ filterFront front, matchesModelKey l = false)
    ∧ ((∀ l ∈ front, matchesModelKey l = false) → filterFront front = front) := by
  refine ⟨?_, mem_filterFront_not_model front, filterFront_of_no_model front⟩
  have hr : renderLines lines = "---" :: (filterFront front ++ "---" :: body) := by
    simp [renderLines, h]
  rw [hr]
  simp only [parseFrontMatter, pyStrip_dashes, if_true]
  have hnd : ∀ l ∈ filterFront front, pyStrip l ≠ "---" := by
    intro l hl
    rcases lines with _ | ⟨first, rest⟩
    · simp [parseFrontMatter] at h
    · simp only [parseFrontMatter] at h
      split at h
      · exact splitAtDelim_front_no_delim rest front body h l
          ((filterFront_sublist front).subset hl)
      · simp at h
  rw [splitAtDelim_append (filterFront front) body "---" hnd pyStrip_dashes]

/-- Witness for C6: a document whose front matter carries a plain `model:`
line and a block-scalar `model: |` with continuation lines, next to two
other keys. -/
theorem C6_model_strip_front_matter_witness :
    parseFrontMatter (renderLines
        ["---", "description: hi", "model: opus", "model: |",
         "  opus-2024", "  fallback", "allowed-tools: Bash", "---", "body"])
      = some (["description: hi", "allowed-tools: Bash"], ["body"])
    ∧ (∀ l ∈ filterFront
        ["description: hi", "model: opus", "model: |",
         "  opus-2024", "  fallback", "allowed-tools: Bash"],
        matchesModelKey l = false) := by
  have h := C6_model_strip_front_matter
    ["---", "description: hi", "model: opus", "model: |",
     "  opus-2024", "  fallback", "allowed-tools: Bash", "---", "body"]
    ["description: hi", "model: opus", "model: |",
     "  opus-2024", "  fallback", "allowed-tools: Bash"]
    ["body"] (by decide)
  refine ⟨?_, h.2.1⟩
  have hf : filterFront
      ["description: hi", "model: opus", "model: |",
       "  opus-2024", "  fallback", "allowed-tools: Bash"]
      = ["description: hi", "allowed-tools: Bash"] := by decide
  rw [← hf]
  exact h.1

/-! ## Data model

Rows mirror the SQLAlchemy models (`app/models/…`); tables are lists in
insertion order.  Ids are `String` (UUIDs) or `Nat` (autoincrement);
timestamps are `Int` milliseconds. -/

structure SessionRow where
  id : String
  user_id : String
  project_id : Option String := none
  status : String := "pending"
  sdk_session_id : Option String := none
  title : Option String := none
  config_snapshot : Option JDict := none
  state_patch : Option JVal := none
  workspace_archive_url : Option String := none
  workspace_files_prefix : Option String := none
  workspace_manifest_key : Option String := none
  workspace_archive_key : Option String := none
  workspace_export_status : Option String := none
  kind : String := "chat"
  is_deleted : Bool := false
deriving Repr

structure RunRow where
  id : Nat
  session_id : String
  user_message_id : Nat := 0
  status : String := "queued"
  schedule_mode : String := "immediate"
  scheduled_at : Option Int := none
  permission_mode : String := "default"
  config_snapshot : JDict := []
  claimed_by : Option String := none
  lease_expires_at : Option Int := none
  started_at : Option Int := none
  finished_at : Option Int := none
  progress : Int := 0
  attempts : Nat := 0
  scheduled_task_id : Option Nat := none
  last_error : Option String := none
  created_at : Int := 0
deriving Repr

structure MessageRow where
  id : Nat
  session_id : String
  role : String
  content : JVal
  text_preview : Option String := none
deriving Repr

structure ToolExecutionRow where
  session_id : String
  message_id : Nat
  tool_use_id : JVal
  tool_name : JVal
  tool_input : Option JVal := none
  tool_output : Option JVal := none
  result_message_id : Option Nat := none
  is_error : Bool := false
  duration_ms : Option Int := none
  created_at : Int := 0
deriving Repr

structure UsageLogRow where
  session_id : String
  run_id : Option Nat := none
  total_cost_usd : Option JVal := none
  duration_ms : Option JVal := none
  usage_json : JVal := .null
deriving Repr

structure UserInputRequestRow where
  id : Nat
  session_id : String
  status : String := "pending"
  expires_at : Option Int := none
  created_at : Int := 0
deriving Repr

structure ScheduledTaskRow where
  id : Nat
  last_run_id : Option Nat := none
  last_run_status : Option String := none
  last_error : Option String := none
deriving Repr

structure ProjectRow where
  id : String
  user_id : String
  repo_url : Option String := none
  git_branch : Option String := none
  git_token_env_key : Option String := none
deriving Repr

structure UserMcpInstallRow where
  user_id : String
  server_id : Int
  enabled : Bool := true
  created_at : Int := 0
deriving Repr

structure UserSkillInstallRow where
  user_id : String
  skill_id : Int
  enabled : Bool := true
  created_at : Int := 0
deriving Repr

structure SubAgentRow where
  id : Int
  user_id : String
  enabled : Bool := true
  created_at : Int := 0
deriving Repr

structure EnvVarRow where
  id : Int
  user_id : String
  key : String
  value_ciphertext : String
  scope : String := "user"
  created_at : Int := 0
deriving Repr, DecidableEq

/-- The control-plane database. -/
structure Db where
  sessions : List SessionRow := []
  runs : List RunRow := []
  messages : List MessageRow := []
  tool_executions : List ToolExecutionRow := []
  usage_logs : List UsageLogRow := []
  user_input_requests : List UserInputRequestRow := []
  scheduled_tasks : List ScheduledTaskRow := []
  projects : List ProjectRow := []
  user_mcp_installs : List UserMcpInstallRow := []
  user_skill_installs : List UserSkillInstallRow := []
  sub_agents : List SubAgentRow := []
  env_vars : List EnvVarRow := []
  next_message_id : Nat := 1
  next_run_id : Nat := 1
deriving Repr

/-- Error kinds raised by the services (`app/core/errors/error_codes.py`). -/
inductive ErrorCode where
  | BAD_REQUEST
  | FORBIDDEN
  | NOT_FOUND
  | PROJECT_NOT_FOUND
deriving Repr, DecidableEq

/-- `AppException(error_code, message)`. -/
structure AppError where
  error_code : ErrorCode
  message : String
deriving Repr, DecidableEq

/-! ## Small Python helpers shared by the services -/

/-- Truthiness of an `Optional[str]` (`None` and `""` are falsy). -/
def optStrTruthy : Option String → Bool
  | none => false
  | some s => ¬ s.isEmpty

/-- Truthiness of an `Optional[int]` id (`None` and `0` are falsy). -/
def optNatTruthy : Option Nat → Bool
  | none => false
  | some n => n ≠ 0

/-- `x or y` on optional strings (`None`/`""` fall through). -/
def optStrOr (x y : Option String) : Option String :=
  if optStrTruthy x then x else y

/-- `value if isinstance(value, str) else default` (the services only index
strings out of message dicts; non-string values fall back to the default). -/
def jStrDefault (v : Option JVal) (d : String) : String :=
  match v with
  | some (.str s) => s
  | _ => d

/-- `v == "lit"` for a `.get` result (Python equality against a string). -/
def jIsStrEq (v : Option JVal) (s : String) : Bool :=
  match v with
  | some (.str t) => t = s
  | _ => false

/-- `s[:n]` on a Python string. -/
def pyTake (n : Nat) (s : String) : String :=
  String.mk (s.toList.take n)

/-- Structural equality of `JVal`s (Python `==` as used by SQLAlchemy
filters on stored payloads). -/
def jvalBeq : JVal → JVal → Bool
  | .null, .null => true
  | .bool a, .bool b => a = b
  | .num a, .num b => a = b
  | .str a, .str b => a = b
  | .arr as, .arr bs => jvalListBeq as bs
  | .obj as, .obj bs => jvalFieldsBeq as bs
  | _, _ => false
where
  jvalListBeq : List JVal → List JVal → Bool
    | [], [] => true
    | a :: as, b :: bs => jvalBeq a b && jvalListBeq as bs
    | _, _ => false
  jvalFieldsBeq : List (String × JVal) → List (String × JVal) → Bool
    | [], [] => true
    | (k, v) :: as, (k', v') :: bs => k = k' && jvalBeq v v' && jvalFieldsBeq as bs
    | _, _ => false

/-- Insertion step of the `ORDER BY created_at DESC` model. -/
def insertByKeyDesc {α : Type} (key : α → Int) (x : α) : List α → List α
  | [] => [x]
  | y :: ys => if key y < key x then x :: y :: ys else y :: insertByKeyDesc key x ys

/-- `ORDER BY created_at DESC` (insertion sort; ties keep an arbitrary but
fixed order, as in SQL). -/
def sortByKeyDesc {α : Type} (key : α → Int) (l : List α) : List α :=
  l.foldr (insertByKeyDesc key) []

theorem mem_insertByKeyDesc {α : Type} (key : α → Int) (x : α) (l : List α) :
    ∀ y, y ∈ insertByKeyDesc key x l ↔ y = x ∨ y ∈ l := by
  induction l with
  | nil => intro y; simp [insertByKeyDesc]
  | cons z zs ih =>
    intro y
    simp only [insertByKeyDesc]
    split
    · simp
    · simp only [List.mem_cons, ih y]
      tauto

theorem mem_sortByKeyDesc {α : Type} (key : α → Int) (l : List α) :
    ∀ y, y ∈ sortByKeyDesc key l ↔ y ∈ l := by
  induction l with
  | nil => intro y; simp [sortByKeyDesc]
  | cons z zs ih =>
    intro y
    simp only [sortByKeyDesc, List.foldr_cons] at *
    rw [mem_insertByKeyDesc]
    simp [ih y]

/-! ## Repositories

Queries mirror `app/repositories/…`.  Several repository files are not part
of the provided sources (only their callers are); those are modelled from
the spec and marked as such. -/

/-- Modelled from the spec: `SessionRepository.get_by_id` (the session
repository file is not under the provided sources; §3 "Session" and its
callers determine a primary-key lookup). -/
def SessionRepository.get_by_id (db : Db) (sid : String) : Option SessionRow :=
  db.sessions.find? (fun r => r.id = sid)

/-- Modelled from the spec: `SessionRepository.get_by_sdk_session_id`
(missing file; §4.3.1 "`session_id` may be either the internal UUID or the
executor's own session id" and the caller determine a lookup on
`sdk_session_id`). -/
def SessionRepository.get_by_sdk_session_id (db : Db) (s : String) : Option SessionRow :=
  db.sessions.find? (fun r => r.sdk_session_id = some s)

/-- `ProjectRepository.get_by_id` (missing file; primary-key lookup). -/
def ProjectRepository.get_by_id (db : Db) (pid : String) : Option ProjectRow :=
  db.projects.find? (fun r => r.id = pid)

/-- `ScheduledTaskRepository.get_by_id` (missing file; primary-key
lookup). -/
def ScheduledTaskRepository.get_by_id (db : Db) (tid : Nat) : Option ScheduledTaskRow :=
  db.scheduled_tasks.find? (fun r => r.id = tid)

/-- `ToolExecutionRepository.get_by_session_and_tool_use_id`. -/
def ToolExecutionRepository.get_by_session_and_tool_use_id
    (texs : List ToolExecutionRow) (session_id : String) (tool_use_id : JVal) :
    Option ToolExecutionRow :=
  texs.find? (fun t => t.session_id = session_id && jvalBeq t.tool_use_id tool_use_id)

/-- `ToolExecutionRepository.list_unfinished_by_session` (tool executions
with `tool_output IS NULL`, ordered by creation). -/
def ToolExecutionRepository.unfinishedPred (session_id : String)
    (t : ToolExecutionRow) : Bool :=
  t.session_id = session_id && t.tool_output.isNone

/-- Modelled from the spec: `UserInputRequestRepository.list_pending_by_session`
(missing file; §4.3.4 step 3 "every pending UserInputRequest on the
session" determines a filter on `status = pending`). -/
def UserInputRequestRepository.pendingPred (session_id : String)
    (e : UserInputRequestRow) : Bool :=
  e.session_id = session_id && e.status = "pending"

/-- `EnvVarRepository.list_by_user_and_scope` (`ORDER BY created_at DESC`). -/
def EnvVarRepository.list_by_user_and_scope (db : Db) (user_id scope : String) :
    List EnvVarRow :=
  sortByKeyDesc (fun e => e.created_at)
    (db.env_vars.filter (fun e => e.user_id = user_id && e.scope = scope))

/-- `UserMcpInstallRepository.list_by_user` (`ORDER BY created_at DESC`). -/
def UserMcpInstallRepository.list_by_user (db : Db) (user_id : String) :
    List UserMcpInstallRow :=
  sortByKeyDesc (fun e => e.created_at)
    (db.user_mcp_installs.filter (fun e => e.user_id = user_id))

/-- `UserSkillInstallRepository.list_by_user` (`ORDER BY created_at DESC`). -/
def UserSkillInstallRepository.list_by_user (db : Db) (user_id : String) :
    List UserSkillInstallRow :=
  sortByKeyDesc (fun e => e.created_at)
    (db.user_skill_installs.filter (fun e => e.user_id = user_id))

/-- `SubAgentRepository.list_enabled_by_user` (`enabled IS TRUE`,
`ORDER BY created_at DESC`). -/
def SubAgentRepository.list_enabled_by_user (db : Db) (user_id : String) :
    List SubAgentRow :=
  sortByKeyDesc (fun e => e.created_at)
    (db.sub_agents.filter (fun e => e.user_id = user_id && e.enabled))

/-! ## `app/services/session_service.py` -/

/-- `SessionUpdateRequest` (`app/schemas/session.py`); `project_id` carries
an explicit "was it set" flag mirroring pydantic's `model_fields_set`. -/
structure SessionUpdateRequest where
  status : Option String := none
  sdk_session_id : Option String := none
  title : Option String := none
  workspace_archive_url : Option String := none
  project_id : Option String := none
  project_id_in_fields_set : Bool := false
  state_patch : Option JVal := none
  workspace_files_prefix : Option String := none
  workspace_manifest_key : Option String := none
  workspace_archive_key : Option String := none
  workspace_export_status : Option String := none
deriving Repr

/-- The scalar-field assignments of `SessionService.update_session`
(lines 84–99 of `session_service.py`; `title` is accepted by the schema but
never written by the service, as in the source). -/
def applySessionUpdateFields (r : SessionRow) (req : SessionUpdateRequest) : SessionRow :=
  let r := match req.status with | some v => { r with status := v } | none => r
  let r := match req.sdk_session_id with | some v => { r with sdk_session_id := some v } | none => r
  let r := match req.workspace_archive_url with | some v => { r with workspace_archive_url := some v } | none => r
  let r := match req.state_patch with | some v => { r with state_patch := some v } | none => r
  let r := match req.workspace_files_prefix with | some v => { r with workspace_files_prefix := some v } | none => r
  let r := match req.workspace_manifest_key with | some v => { r with workspace_manifest_key := some v } | none => r
  let r := match req.workspace_archive_key with | some v => { r with workspace_archive_key := some v } | none => r
  let r := match req.workspace_export_status with | some v => { r with workspace_export_status := some v } | none => r
  r

/-- `SessionService.get_session`. -/
def get_session (db : Db) (session_id : String) : Except AppError SessionRow :=
  match SessionRepository.get_by_id db session_id with
  | some s => .ok s
  | none => .error ⟨.NOT_FOUND, s!"Session not found: {session_id}"⟩

/-- `SessionService.update_session`: re-fetch the session, validate a
`project_id` change, assign the requested fields in place, commit.  The
in-place ORM mutation is a map over the rows with the session's primary
key. -/
def update_session (db : Db) (session_id : String) (req : SessionUpdateRequest) :
    Except AppError (Db × SessionRow) :=
  match get_session db session_id with
  | .error e => .error e
  | .ok db_session =>
    let projectResult : Except AppError (Option (Option String)) :=
      if req.project_id_in_fields_set then
        match req.project_id with
        | none => .ok (some none)
        | some pid =>
          match ProjectRepository.get_by_id db pid with
          | none => .error ⟨.PROJECT_NOT_FOUND, s!"Project not found: {pid}"⟩
          | some project =>
            if project.user_id = db_session.user_id then .ok (some (some pid))
            else .error ⟨.PROJECT_NOT_FOUND, s!"Project not found: {pid}"⟩
      else .ok none
    match projectResult with
    | .error e => .error e
    | .ok projectAssign =>
      let upd : SessionRow → SessionRow := fun r =>
        let r := match projectAssign with
          | some p => { r with project_id := p }
          | none => r
        applySessionUpdateFields r req
      let db' : Db :=
        { db with sessions := db.sessions.map (fun r => if r.id = session_id then upd r else r) }
      .ok (db', upd db_session)

/-- `SessionService.find_session_by_sdk_id_or_uuid`: look up by SDK session
id first, then by primary key (an unparsable UUID string simply matches no
row). -/
def find_session_by_sdk_id_or_uuid (db : Db) (session_id : String) : Option SessionRow :=
  match SessionRepository.get_by_sdk_session_id db session_id with
  | some s => some s
  | none => SessionRepository.get_by_id db session_id

/-- The per-run record update of `cancel_session` step 2. -/
def cancelRunUpdate (now : Int) (r : RunRow) : RunRow :=
  { r with status := "canceled", finished_at := some now,
           claimed_by := none, lease_expires_at := none }

/-- The `AgentRun.status.in_(["queued", "claimed", "running"])` filter of
`cancel_session`. -/
def unfinishedRunPred (session_id : String) (r : RunRow) : Bool :=
  r.session_id = session_id &&
    (r.status = "queued" || r.status = "claimed" || r.status = "running")

/-- The `": {reason.strip()}"` suffix appended to the `"Canceled"` marker
(empty for an absent or whitespace-only reason). -/
def cancelReasonSuffix (reason : Option String) : String :=
  match reason with
  | some s => if (pyStrip s).isEmpty then "" else ": " ++ pyStrip s
  | none => ""

/-- The scheduled-task summary sync inlined in `cancel_session`'s run loop
(`run.status` has already been set to `"canceled"` when it runs). -/
def cancelTaskSync (d : Db) (run : RunRow) : Db :=
  match run.scheduled_task_id with
  | none => d
  | some tid =>
    match ScheduledTaskRepository.get_by_id d tid with
    | none => d
    | some db_task =>
      if !(optNatTruthy db_task.last_run_id) || db_task.last_run_id = some run.id then
        { d with scheduled_tasks := d.scheduled_tasks.map (fun t =>
            if t.id = tid then
              { t with last_run_id := some run.id, last_run_status := some "canceled",
                       last_error := none }
            else t) }
      else d

/-- `SessionService.cancel_session`: cancel all unfinished runs, expire
pending user-input requests, close unfinished tool executions, mark the
session canceled, commit once.  In-place mutations of fetched rows are maps
over the fetched predicate; `created_at` timestamps are always aware in the
model, so the naive-datetime normalization branch is the identity. -/
def cancel_session (db : Db) (session_id : String) (user_id : String)
    (reason : Option String) (now : Int) :
    Except AppError (Db × SessionRow × Nat × Nat) :=
  match get_session db session_id with
  | .error e => .error e
  | .ok db_session =>
  if db_session.user_id ≠ user_id then
    .error ⟨.FORBIDDEN, "Session does not belong to the user"⟩
  else
    let fetchedRuns := sortByKeyDesc (fun r => r.created_at)
      (db.runs.filter (unfinishedRunPred session_id))
    let db1 : Db := { db with runs := db.runs.map (fun r =>
      if unfinishedRunPred session_id r then cancelRunUpdate now r else r) }
    let db2 := fetchedRuns.foldl (fun d run => cancelTaskSync d { run with status := "canceled" }) db1
    let canceled_runs := fetchedRuns.length
    let expired_requests :=
      (db2.user_input_requests.filter (UserInputRequestRepository.pendingPred session_id)).length
    let db3 : Db := { db2 with user_input_requests := db2.user_input_requests.map (fun e =>
      if UserInputRequestRepository.pendingPred session_id e then
        { e with status := "expired", expires_at := some now }
      else e) }
    let unfinished_tools :=
      db3.tool_executions.filter (ToolExecutionRepository.unfinishedPred session_id)
    let suffix := cancelReasonSuffix reason
    let db4 : Db :=
      if unfinished_tools.isEmpty then db3
      else { db3 with tool_executions := db3.tool_executions.map (fun t =>
        if ToolExecutionRepository.unfinishedPred session_id t then
          { t with is_error := true,
                   tool_output := some (JVal.obj [("content", JVal.str ("Canceled" ++ suffix))]),
                   duration_ms := if t.duration_ms.isNone
                     then some (max 0 (now - t.created_at)) else t.duration_ms }
        else t) }
    let db5 : Db := { db4 with sessions := db4.sessions.map (fun r =>
      if r.id = session_id then { r with status := "canceled" } else r) }
    let sessAfter := (SessionRepository.get_by_id db5 session_id).getD
      { db_session with status := "canceled" }
    .ok (db5, sessAfter, canceled_runs, expired_requests)

/-! ## `app/services/callback_service.py`

The callback request/response schemas for the backend are not among the
provided sources; they are modelled from the executor-manager's identical
schema (`executor_manager/app/schemas/callback.py`) and the spec (§4.3.1).
Each `db.commit()` of the service appends a snapshot to the commit trace of
`process_agent_callback`. -/

/-- `CallbackStatus` enum. -/
inductive CallbackStatus where
  | accepted
  | running
  | completed
  | failed
deriving Repr, DecidableEq

/-- `.value` of the enum member. -/
def CallbackStatus.value : CallbackStatus → String
  | .accepted => "accepted"
  | .running => "running"
  | .completed => "completed"
  | .failed => "failed"

/-- Modelled from the spec: `AgentCallbackRequest` (§4.3.1; the backend
schema file is missing, the executor-manager's copy has the same shape). -/
structure AgentCallbackRequest where
  session_id : String
  status : CallbackStatus
  progress : Option Int := none
  new_message : Option JVal := none
  state_patch : Option JVal := none
  sdk_session_id : Option String := none
  workspace_files_prefix : Option String := none
  workspace_manifest_key : Option String := none
  workspace_archive_key : Option String := none
  workspace_export_status : Option String := none
deriving Repr

/-- Modelled from the spec: `CallbackResponse` (missing schema file; fields
taken from its three construction sites in `callback_service.py`). -/
structure CallbackResponse where
  session_id : String
  status : String
  message : Option String := none
  callback_status : Option CallbackStatus := none
deriving Repr, DecidableEq

/-- `CallbackService._extract_sdk_session_id_from_message`. -/
def extract_sdk_session_id_from_message (message : JDict) : Option String :=
  let message_type := jStrDefault (dictGet message "_type") ""
  if pyContains message_type "ResultMessage"
      && (match dictGet message "session_id" with | some (.str _) => true | _ => false) then
    match dictGet message "session_id" with
    | some (.str s) => some s
    | _ => none
  else if pyContains message_type "SystemMessage"
      && jIsStrEq (dictGet message "subtype") "init" then
    match (dictGet message "data").getD (.obj []) with
    | .obj data =>
      match dictGet data "data" with
      | some (.obj inner) =>
        match dictGet inner "session_id" with
        | some (.str s) => some s
        | _ =>
          match dictGet data "session_id" with
          | some (.str s) => some s
          | _ => none
      | _ =>
        match dictGet data "session_id" with
        | some (.str s) => some s
        | _ => none
    | _ => none
  else none

/-- `CallbackService._extract_role_from_message` (unknown type tags default
to `assistant`). -/
def extract_role_from_message (message : JDict) : String :=
  let message_type := jStrDefault (dictGet message "_type") ""
  if pyContains message_type "AssistantMessage" then "assistant"
  else if pyContains message_type "UserMessage" then "user"
  else if pyContains message_type "SystemMessage" then "system"
  else "assistant"

/-- One content block of `CallbackService._extract_tool_executions`:
`ToolUseBlock`s create or overwrite the named execution, `ToolResultBlock`s
create a placeholder (`tool_name="unknown"`) or complete the existing row —
with an explicit `tool_output = {content: …}` payload even when the content
is `None`/empty. -/
def extract_tool_block_step (now : Int) (session_id : String) (message_id : Nat)
    (texs : List ToolExecutionRow) (block : JVal) : List ToolExecutionRow :=
  match block with
  | .obj b =>
    let block_type := jStrDefault (dictGet b "_type") ""
    if pyContains block_type "ToolUseBlock" then
      let tool_use_id := (dictGet b "id").getD .null
      let tool_name := (dictGet b "name").getD .null
      let tool_input := dictGet b "input"
      if !(pyTruthy tool_use_id) || !(pyTruthy tool_name) then texs
      else
        match ToolExecutionRepository.get_by_session_and_tool_use_id texs session_id tool_use_id with
        | some _ =>
          updateFirst
            (fun t => t.session_id = session_id && jvalBeq t.tool_use_id tool_use_id)
            (fun t => { t with tool_name := tool_name, tool_input := tool_input,
                               message_id := message_id }) texs
        | none =>
          texs ++ [{ session_id := session_id, message_id := message_id,
                     tool_use_id := tool_use_id, tool_name := tool_name,
                     tool_input := tool_input, created_at := now }]
    else if pyContains block_type "ToolResultBlock" then
      let tool_use_id := (dictGet b "tool_use_id").getD .null
      let result_content := (dictGet b "content").getD .null
      let is_error := pyTruthy ((dictGet b "is_error").getD (.bool false))
      if !(pyTruthy tool_use_id) then texs
      else
        let tool_output := JVal.obj [("content", result_content)]
        match ToolExecutionRepository.get_by_session_and_tool_use_id texs session_id tool_use_id with
        | none =>
          texs ++ [{ session_id := session_id, message_id := message_id,
                     tool_use_id := tool_use_id, tool_name := .str "unknown",
                     tool_output := some tool_output,
                     result_message_id := some message_id,
                     is_error := is_error, created_at := now }]
        | some _ =>
          updateFirst
            (fun t => t.session_id = session_id && jvalBeq t.tool_use_id tool_use_id)
            (fun t => { t with tool_output := some tool_output,
                               result_message_id := some message_id,
                               is_error := is_error,
                               duration_ms := if t.duration_ms.isNone
                                 then some (now - t.created_at) else t.duration_ms }) texs
    else texs
  | _ => texs

/-- `CallbackService._extract_tool_executions` over a whole message. -/
def extract_tool_executions (now : Int) (session_id : String) (message_id : Nat)
    (texs : List ToolExecutionRow) (message : JDict) : List ToolExecutionRow :=
  match dictGet message "content" with
  | some (.arr content) => content.foldl (extract_tool_block_step now session_id message_id) texs
  | _ => texs

/-- The `TextBlock` preview scan of `_persist_message_and_tools`
(first text block's first 500 characters). -/
def textPreviewOf (message : JDict) : Option String :=
  match dictGet message "content" with
  | some (.arr content) =>
    (content.find? (fun b => match b with
      | .obj o => pyContains (jStrDefault (dictGet o "_type") "") "TextBlock"
      | _ => false)).map (fun b => match b with
        | .obj o => pyTake 500 (jStrDefault (dictGet o "text") "")
        | _ => "")
  | _ => none

/-- `CallbackService._persist_message_and_tools`: record the message
(`MessageRepository.create` is a missing file, modelled from the spec §4.3.2
step 7 as an append with the next id), flush, extract tool executions.  Its
`db.commit()` is recorded by the caller. -/
def persist_message_and_tools (db : Db) (session_id : String) (message : JDict)
    (now : Int) : Db :=
  let role := extract_role_from_message message
  let message_id := db.next_message_id
  let db := { db with
    messages := db.messages ++
      [({ id := message_id, session_id := session_id, role := role,
          content := .obj message, text_preview := textPreviewOf message } : MessageRow)],
    next_message_id := message_id + 1 }
  { db with tool_executions :=
      extract_tool_executions now session_id message_id db.tool_executions message }

/-- The latest claimed-or-running run of a session
(`.order_by(created_at.desc()).first()`). -/
def latestActiveRun (db : Db) (session_id : String) : Option RunRow :=
  (sortByKeyDesc (fun r => r.created_at)
    (db.runs.filter (fun r =>
      r.session_id = session_id && (r.status = "claimed" || r.status = "running")))).head?

/-- `CallbackService._extract_and_persist_usage`: on a `ResultMessage` with
a non-empty usage dict, append a usage log tied to the latest active run and
commit; otherwise do nothing (`none` = no commit).  The usage-log repository
under the provided sources lacks `run_id`; the richer variant the service
calls is modelled from the spec ("append a UsageLog associated with the most
recent non-terminal run"). -/
def extract_and_persist_usage (db : Db) (session_id : String) (message : JDict) :
    Option Db :=
  let message_type := jStrDefault (dictGet message "_type") ""
  if !(pyContains message_type "ResultMessage") then none
  else
    match dictGet message "usage" with
    | some (.obj usage) =>
      if usage.isEmpty then none
      else
        let db_run := latestActiveRun db session_id
        some { db with usage_logs := db.usage_logs ++
          [{ session_id := session_id, run_id := db_run.map (fun r => r.id),
             total_cost_usd := dictGet message "total_cost_usd",
             duration_ms := dictGet message "duration_ms",
             usage_json := .obj usage }] }
    | _ => none

/-- `CallbackService._sync_scheduled_task_last_status`. -/
def sync_scheduled_task_last_status (db : Db) (db_run : RunRow) : Db :=
  match db_run.scheduled_task_id with
  | none => db
  | some tid =>
    match ScheduledTaskRepository.get_by_id db tid with
    | none => db
    | some db_task =>
      if optNatTruthy db_task.last_run_id && db_task.last_run_id ≠ some db_run.id then db
      else
        { db with scheduled_tasks := db.scheduled_tasks.map (fun t =>
            if t.id = tid then
              { t with last_run_id := some db_run.id,
                       last_run_status := some db_run.status,
                       last_error :=
                         if db_run.status = "failed" then optStrOr db_run.last_error db_task.last_error
                         else if db_run.status = "completed" then none
                         else t.last_error }
            else t) }

/-- The run-transition block of `process_agent_callback` (progress update,
`claimed → running`, terminal transition, scheduled-task sync). -/
def applyRunTransition (db : Db) (callback : AgentCallbackRequest) (run : RunRow)
    (now : Int) : Db :=
  let run := { run with progress := callback.progress.getD 0 }
  let run :=
    if callback.status = .running && run.status = "claimed" then
      { run with status := "running",
                 started_at := if run.started_at.isNone then some now else run.started_at }
    else run
  let run :=
    if callback.status = .completed || callback.status = .failed then
      { run with status := callback.status.value, finished_at := some now,
                 progress := if callback.status = .completed then 100 else run.progress }
    else run
  let db := { db with runs := db.runs.map (fun r => if r.id = run.id then run else r) }
  sync_scheduled_task_last_status db run

/-- The result of one callback: the final database, the list of committed
snapshots (one per `db.commit()`), and the HTTP response body. -/
structure ProcessResult where
  db : Db
  commits : List Db
  response : CallbackResponse

/-- The `if callback.new_message:` block of `process_agent_callback`:
persist the message and its tool executions (one commit), then the usage
log (one more commit when a `ResultMessage` carries usage).  Returns the
database and the committed snapshots; a falsy or non-dict message is a
no-op. -/
def messageStage (db1 : Db) (session_id : String) (new_message : Option JVal)
    (now : Int) : Db × List Db :=
  match new_message with
  | some (.obj m) =>
    if pyTruthy (.obj m) then
      let d1 := persist_message_and_tools db1 session_id m now
      match extract_and_persist_usage d1 session_id m with
      | some d2 => (d2, [d1, d2])
      | none => (d1, [d1])
    else (db1, [])
  | _ => (db1, [])

/-- The run-lookup-and-transition block of `process_agent_callback` (one
commit when a claimed/running run exists). -/
def runStage (db2 : Db) (callback : AgentCallbackRequest) (session_id : String)
    (now : Int) : Db × List Db :=
  match latestActiveRun db2 session_id with
  | none => (db2, [])
  | some run =>
    let d := applyRunTransition db2 callback run now
    (d, [d])

/-- `CallbackService.process_agent_callback`, the callback state machine of
§4.3.2: resolve the session, short-circuit canceled sessions, write through
the SDK session id / terminal status / state patch / workspace-export fields,
persist the message with its tool executions and usage, and transition the
latest active run. -/
def process_agent_callback (db : Db) (callback : AgentCallbackRequest) (now : Int) :
    Except AppError ProcessResult :=
  match find_session_by_sdk_id_or_uuid db callback.session_id with
  | none =>
    .ok { db := db, commits := [],
          response := { session_id := callback.session_id,
                        status := "callback_received",
                        message := some "Session not found yet" } }
  | some db_session =>
    if db_session.status = "canceled" then
      .ok { db := db, commits := [],
            response := { session_id := db_session.id, status := db_session.status,
                          callback_status := some callback.status } }
    else
      let derived_sdk_session_id :=
        if optStrTruthy callback.sdk_session_id then callback.sdk_session_id
        else match callback.new_message with
          | some msg =>
            if pyTruthy msg then
              match msg with
              | .obj m => extract_sdk_session_id_from_message m
              | _ => callback.sdk_session_id
            else callback.sdk_session_id
          | none => callback.sdk_session_id
      let set_sdk := optStrTruthy derived_sdk_session_id
        && derived_sdk_session_id ≠ db_session.sdk_session_id
      let set_status := db_session.status ≠ "canceled"
        && (callback.status = .completed || callback.status = .failed)
      let has_update := set_sdk || set_status || callback.state_patch.isSome
        || callback.workspace_files_prefix.isSome || callback.workspace_manifest_key.isSome
        || callback.workspace_archive_key.isSome || callback.workspace_export_status.isSome
      let req : SessionUpdateRequest := {
        sdk_session_id := if set_sdk then derived_sdk_session_id else none,
        status := if set_status then some callback.status.value else none,
        state_patch := callback.state_patch,
        workspace_files_prefix := callback.workspace_files_prefix,
        workspace_manifest_key := callback.workspace_manifest_key,
        workspace_archive_key := callback.workspace_archive_key,
        workspace_export_status := callback.workspace_export_status }
      match (if has_update then update_session db db_session.id req
          else .ok (db, db_session)) with
      | .error e => .error e
      | .ok (db1, sess1) =>
      let commits1 : List Db := if has_update then [db1] else []
      let ms := messageStage db1 db_session.id callback.new_message now
      let rs := runStage ms.1 callback db_session.id now
      .ok { db := rs.1, commits := commits1 ++ ms.2 ++ rs.2,
            response := { session_id := db_session.id, status := sess1.status,
                          callback_status := some callback.status } }

/-! ## `app/services/env_var_service.py` -/

def SYSTEM_USER_ID : String := "__system__"

/-- Lookup in a plain string→string map. -/
def strDictGet (m : List (String × String)) (k : String) : Option String :=
  (m.find? (fun p => p.1 = k)).map (fun p => p.2)

/-- `m[k] = v` on a plain string→string map. -/
def strDictSet (m : List (String × String)) (k v : String) : List (String × String) :=
  if (m.find? (fun p => p.1 = k)).isSome then
    m.map (fun p => if p.1 = k then (k, v) else p)
  else m ++ [(k, v)]

/-- One loop iteration of `get_env_map`: decrypt (a failure is skipped and
logged), skip whitespace-only values, otherwise write the key. -/
def envMapStep (dec : String → Option String)
    (m : List (String × String)) (item : EnvVarRow) : List (String × String) :=
  match dec item.value_ciphertext with
  | none => m
  | some value => if (pyStrip value).isEmpty then m else strDictSet m item.key value

/-- `EnvVarService.get_env_map`: system-scope vars first, then the user's
vars (later writes shadow earlier ones).  `dec` models
`decrypt_value(·, secret_key)` (`app/utils/crypto.py` is not among the
provided sources); `none` models a decryption exception. -/
def get_env_map (db : Db) (dec : String → Option String) (user_id : String) :
    List (String × String) :=
  let env_map : List (String × String) := []
  let env_map := (EnvVarRepository.list_by_user_and_scope db SYSTEM_USER_ID "system").foldl
    (envMapStep dec) env_map
  (EnvVarRepository.list_by_user_and_scope db user_id "user").foldl
    (envMapStep dec) env_map

/-! ## `app/services/task_service.py` -/

/-- A Python `datetime`: either timezone-aware (identified with its UTC
instant) or naive (a bare wall-clock reading). -/
inductive PyDateTime where
  | aware (utc : Int)
  | naive (wall : Int)
deriving Repr, DecidableEq

/-- `TaskConfig` (`app/schemas/session.py`), represented by its
`model_dump(exclude_unset=True)` image: the association list of explicitly
set fields. -/
structure TaskConfig where
  fields_set : JDict := []
deriving Repr

/-- The `input_files` attribute of a `TaskConfig` (default `[]`). -/
def TaskConfig.input_files (c : TaskConfig) : List JVal :=
  match dictGet c.fields_set "input_files" with
  | some (.arr xs) => xs
  | _ => []

/-- Modelled from the spec: `TaskEnqueueRequest` (`app/schemas/task.py` is
missing; the fields are those consumed by `enqueue_task`, §4.1.1). -/
structure TaskEnqueueRequest where
  session_id : Option String := none
  prompt : String
  config : Option TaskConfig := none
  schedule_mode : Option String := none
  scheduled_at : Option PyDateTime := none
  timezone : Option String := none
  permission_mode : Option String := none
  project_id : Option String := none

/-- `TaskEnqueueResponse`. -/
structure TaskEnqueueResponse where
  session_id : String
  run_id : Nat
  status : String
deriving Repr, DecidableEq

/-- `TaskService._normalize_scheduled_at`: a naive datetime is interpreted
in the provided timezone when one is given (unknown zone names are a
bad-request), else as UTC; the result is converted to UTC.  `tzdb` models
`ZoneInfo`: each zone's UTC offset (`none` = `ZoneInfo` raised). -/
def normalize_scheduled_at (tzdb : String → Option Int)
    (scheduled_at : PyDateTime) (timezone_name : Option String) :
    Except AppError Int :=
  match scheduled_at with
  | .naive wall =>
    let tz_raw := pyStrip (timezone_name.getD "")
    if ¬ tz_raw.isEmpty then
      match tzdb tz_raw with
      | none => .error ⟨.BAD_REQUEST, s!"Invalid timezone: {tz_raw}"⟩
      | some offset => .ok (wall - offset)
    else .ok wall
  | .aware utc => .ok utc

/-- `TaskService._resolve_schedule`. -/
def resolve_schedule (tzdb : String → Option Int) (request : TaskEnqueueRequest) :
    Except AppError (String × Option Int) := do
  let schedule_mode :=
    match request.schedule_mode with
    | some s => pyStrip s
    | none => ""
  if schedule_mode.isEmpty then
    throw ⟨.BAD_REQUEST, "schedule_mode cannot be empty"⟩
  else
    let scheduled_at ←
      match request.scheduled_at with
      | some dt => (normalize_scheduled_at tzdb dt request.timezone).map some
      | none => pure none
    if schedule_mode = "scheduled" then
      match scheduled_at with
      | none => throw ⟨.BAD_REQUEST, "scheduled_at is required when schedule_mode=scheduled"⟩
      | some t => return (schedule_mode, some t)
    else if schedule_mode = "immediate" then
      match scheduled_at with
      | some t => return ("scheduled", some t)
      | none => return (schedule_mode, none)
    else if schedule_mode = "nightly" then
      match scheduled_at with
      | some _ => throw ⟨.BAD_REQUEST, "scheduled_at cannot be provided when schedule_mode=nightly"⟩
      | none => return (schedule_mode, none)
    else
      return (schedule_mode, scheduled_at)

/-- One override entry of `_merge_config_map`: `null` removes the key,
dict-over-dict shallow-merges, anything else replaces. -/
def mergeConfigStep (merged : JDict) (kv : String × JVal) : JDict :=
  match kv.2 with
  | .null => dictPop merged kv.1
  | .obj o =>
    match dictGet merged kv.1 with
    | some (.obj b) => dictSet merged kv.1 (.obj (dictUnion b o))
    | _ => dictSet merged kv.1 (.obj o)
  | v => dictSet merged kv.1 v

/-- `TaskService._merge_config_map`. -/
def merge_config_map (defaults overrides : JDict) : JDict :=
  if overrides.isEmpty then defaults
  else overrides.foldl mergeConfigStep defaults

/-- `TaskService._normalize_mcp_server_ids` / `_normalize_skill_ids` /
`_normalize_subagent_ids` (three identical bodies in the source): keep
ints, parse non-blank strings, skip everything else; non-lists give
`none`. -/
def normalize_id_list (value : Option JVal) : Option (List Int) :=
  match value with
  | some (.arr items) => some (items.foldl (fun acc it =>
      match it with
      | .num n => acc ++ [n]
      | .str s =>
        let s := pyStrip s
        if s.isEmpty then acc
        else match s.toInt? with
          | some n => acc ++ [n]
          | none => acc
      | _ => acc) [])
  | _ => none

/-- `TaskService._build_user_mcp_server_ids_defaults`. -/
def build_user_mcp_server_ids_defaults (db : Db) (user_id : String) : List Int :=
  (UserMcpInstallRepository.list_by_user db user_id).foldl
    (fun acc install => if install.enabled then acc ++ [install.server_id] else acc) []

/-- `TaskService._build_user_mcp_server_ids_with_toggles`. -/
def build_user_mcp_server_ids_with_toggles (db : Db) (user_id : String)
    (toggles : JDict) : List Int :=
  (UserMcpInstallRepository.list_by_user db user_id).foldl
    (fun acc install =>
      if dictMem toggles (toString install.server_id) then
        if pyTruthy ((dictGet toggles (toString install.server_id)).getD .null) then
          acc ++ [install.server_id]
        else acc
      else if install.enabled then acc ++ [install.server_id]
      else acc) []

/-- `TaskService._build_user_skill_ids_defaults`. -/
def build_user_skill_ids_defaults (db : Db) (user_id : String) : List Int :=
  (UserSkillInstallRepository.list_by_user db user_id).foldl
    (fun acc install => if install.enabled then acc ++ [install.skill_id] else acc) []

/-- `TaskService._build_user_skill_ids_with_toggles`. -/
def build_user_skill_ids_with_toggles (db : Db) (user_id : String)
    (toggles : JDict) : List Int :=
  (UserSkillInstallRepository.list_by_user db user_id).foldl
    (fun acc install =>
      if dictMem toggles (toString install.skill_id) then
        if pyTruthy ((dictGet toggles (toString install.skill_id)).getD .null) then
          acc ++ [install.skill_id]
        else acc
      else if install.enabled then acc ++ [install.skill_id]
      else acc) []

/-- `TaskService._build_user_subagent_ids_defaults`. -/
def build_user_subagent_ids_defaults (db : Db) (user_id : String) : List Int :=
  (SubAgentRepository.list_enabled_by_user db user_id).foldl
    (fun acc subagent => acc ++ [subagent.id]) []

/-- The base-snapshot scrub opening `_build_config_snapshot`: drop
`mcp_config`, the legacy `skill_files`, and the per-run `input_files`. -/
def scrubBaseConfig (base : JDict) : JDict :=
  dictPop (dictPop (dictPop base "mcp_config") "skill_files") "input_files"

/-- The override preprocessing of `_build_config_snapshot`: drop
`input_files`, extract the `mcp_config` / `skill_config` toggle dicts. -/
def splitOverrides (fields_set : JDict) :
    Option JDict × Option JDict × JDict :=
  let request_config := dictPop fields_set "input_files"
  let mcp_toggles : Option JDict :=
    match dictGet request_config "mcp_config" with
    | some (.obj o) => some o
    | _ => none
  let request_config := dictPop request_config "mcp_config"
  let skill_toggles : Option JDict :=
    match dictGet request_config "skill_config" with
    | some (.obj o) => some o
    | _ => none
  let request_config := dictPop request_config "skill_config"
  (mcp_toggles, skill_toggles, request_config)

/-- `TaskService._build_config_snapshot`: scrub the base, merge the
explicitly-set overrides, then materialize `mcp_server_ids`, `skill_ids`
and `subagent_ids` from the toggles / base list / enabled installs. -/
def build_config_snapshot (db : Db) (user_id : String)
    (task_config : Option TaskConfig) (base_config : Option JDict) :
    Option JDict :=
  let merged_base := scrubBaseConfig (base_config.getD [])
  let base_mcp_server_ids := normalize_id_list (dictGet merged_base "mcp_server_ids")
  let base_skill_ids := normalize_id_list (dictGet merged_base "skill_ids")
  let state :=
    match task_config with
    | none => ((none : Option JDict), (none : Option JDict), merged_base)
    | some tc =>
      let (mcp_toggles, skill_toggles, request_config) := splitOverrides tc.fields_set
      (mcp_toggles, skill_toggles, merge_config_map merged_base request_config)
  let mcp_toggles := state.1
  let skill_toggles := state.2.1
  let merged_base := state.2.2
  let merged_base :=
    match mcp_toggles with
    | some toggles =>
      dictSet merged_base "mcp_server_ids"
        (.arr ((build_user_mcp_server_ids_with_toggles db user_id toggles).map .num))
    | none =>
      match base_mcp_server_ids with
      | some ids => dictSet merged_base "mcp_server_ids" (.arr (ids.map .num))
      | none =>
        dictSet merged_base "mcp_server_ids"
          (.arr ((build_user_mcp_server_ids_defaults db user_id).map .num))
  let merged_base :=
    match skill_toggles with
    | some toggles =>
      dictSet merged_base "skill_ids"
        (.arr ((build_user_skill_ids_with_toggles db user_id toggles).map .num))
    | none =>
      match base_skill_ids with
      | some ids => dictSet merged_base "skill_ids" (.arr (ids.map .num))
      | none =>
        dictSet merged_base "skill_ids"
          (.arr ((build_user_skill_ids_defaults db user_id).map .num))
  let selected_subagent_ids := normalize_id_list (dictGet merged_base "subagent_ids")
  let merged_base :=
    match selected_subagent_ids with
    | some ids => dictSet merged_base "subagent_ids" (.arr (ids.map .num))
    | none =>
      dictSet merged_base "subagent_ids"
        (.arr ((build_user_subagent_ids_defaults db user_id).map .num))
  if merged_base.isEmpty then none else some merged_base

/-- `TaskService._apply_project_repo_defaults`. -/
def apply_project_repo_defaults (config : Option JDict) (project : Option ProjectRow) :
    Option JDict :=
  match config, project with
  | some cfg, some project =>
    let project_repo := pyStrip (project.repo_url.getD "")
    if project_repo.isEmpty then some cfg
    else
      let fillBranch : JDict → JDict := fun upd =>
        if dictMem upd "git_branch" then upd
        else
          let branch := pyStrip (project.git_branch.getD "")
          if branch.isEmpty then upd else dictSet upd "git_branch" (.str branch)
      let fillToken : JDict → JDict := fun upd =>
        if dictMem upd "git_token_env_key" then upd
        else
          let token_key := pyStrip (project.git_token_env_key.getD "")
          if token_key.isEmpty then upd else dictSet upd "git_token_env_key" (.str token_key)
      let repo_key_present := dictMem cfg "repo_url"
      let repo_val := if repo_key_present then pyStrip (jStrDefault (dictGet cfg "repo_url") "") else ""
      if ¬ repo_key_present then
        some (fillToken (fillBranch (dictSet cfg "repo_url" (.str project_repo))))
      else if repo_val.isEmpty then some cfg
      else if repo_val = project_repo then some (fillToken (fillBranch cfg))
      else some cfg
  | _, _ => config

/-- `TaskService.enqueue_task`: validate project and session ownership,
clear `state_patch`, merge configs, append the user message, validate the
prompt and `permission_mode`, resolve the schedule, create the queued run,
mark the session pending, commit.  `new_session_id` stands for the UUID
generated when no session is supplied;
`SessionRepository.create` / `MessageRepository.create` /
`RunRepository.create` are missing files, modelled from the spec
(§4.1.1: run starts `queued` with `attempts = 0`). -/
def enqueue_task (db : Db) (user_id : String) (request : TaskEnqueueRequest)
    (tzdb : String → Option Int) (now : Int) (new_session_id : String) :
    Except AppError (Db × TaskEnqueueResponse) := do
  let project : Option ProjectRow ←
    match request.project_id with
    | none => pure none
    | some pid =>
      match ProjectRepository.get_by_id db pid with
      | none => throw ⟨.PROJECT_NOT_FOUND, s!"Project not found: {pid}"⟩
      | some p =>
        if p.user_id ≠ user_id then throw ⟨.PROJECT_NOT_FOUND, s!"Project not found: {pid}"⟩
        else pure (some p)
  let (db, session_id, merged_config) ←
    match request.session_id with
    | some sid =>
      match SessionRepository.get_by_id db sid with
      | none => throw ⟨.NOT_FOUND, s!"Session not found: {sid}"⟩
      | some db_session =>
        if db_session.user_id ≠ user_id then
          throw ⟨.FORBIDDEN, "Session does not belong to the user"⟩
        else
          let db : Db := { db with sessions := db.sessions.map (fun r =>
            if r.id = sid then { r with state_patch := some (.obj []) } else r) }
          if request.project_id.isSome && db_session.project_id ≠ request.project_id then
            throw ⟨.BAD_REQUEST, "project_id does not match the session"⟩
          else
            let base_config := db_session.config_snapshot.getD []
            let merged := build_config_snapshot db user_id request.config (some base_config)
            let merged := apply_project_repo_defaults merged project
            pure (db, sid, merged)
    | none =>
      let merged := build_config_snapshot db user_id request.config (some [])
      let merged := apply_project_repo_defaults merged project
      let db : Db := { db with sessions := db.sessions ++
        [({ id := new_session_id, user_id := user_id, config_snapshot := merged,
            project_id := request.project_id, kind := "chat" } : SessionRow)] }
      pure (db, new_session_id, merged)
  let db : Db :=
    match merged_config with
    | some cfg => { db with sessions := db.sessions.map (fun r =>
        if r.id = session_id then { r with config_snapshot := some cfg } else r) }
    | none => db
  let prompt := pyStrip request.prompt
  if prompt.isEmpty then
    throw ⟨.BAD_REQUEST, "Prompt cannot be empty"⟩
  else
    let permission_mode :=
      let p := pyStrip (request.permission_mode.getD "default")
      if p.isEmpty then "default" else p
    if permission_mode ∉ ["default", "acceptEdits", "plan", "bypassPermissions"] then
      throw ⟨.BAD_REQUEST, s!"Invalid permission_mode: {permission_mode}"⟩
    else
      let user_message_content : JVal := .obj
        [("_type", .str "UserMessage"),
         ("content", .arr [.obj [("_type", .str "TextBlock"), ("text", .str prompt)]])]
      let message_id := db.next_message_id
      let db : Db := { db with
        messages := db.messages ++
          [({ id := message_id, session_id := session_id, role := "user",
              content := user_message_content,
              text_preview := some (pyTake 500 prompt) } : MessageRow)],
        next_message_id := message_id + 1 }
      let run_config_snapshot :=
        match request.config with
        | some cfg =>
          if ¬ cfg.input_files.isEmpty then
            dictSet (merged_config.getD []) "input_files" (.arr cfg.input_files)
          else merged_config.getD []
        | none => merged_config.getD []
      let (schedule_mode, scheduled_at) ← resolve_schedule tzdb request
      let run_id := db.next_run_id
      let db : Db := { db with
        runs := db.runs ++
          [({ id := run_id, session_id := session_id, user_message_id := message_id,
              status := "queued", schedule_mode := schedule_mode,
              scheduled_at := scheduled_at, permission_mode := permission_mode,
              config_snapshot := run_config_snapshot, attempts := 0,
              created_at := now } : RunRow)],
        next_run_id := run_id + 1 }
      let db : Db := { db with sessions := db.sessions.map (fun r =>
        if r.id = session_id then { r with status := "pending" } else r) }
      return (db, { session_id := session_id, run_id := run_id, status := "queued" })

/-! ## Claim C1: cancel is sticky -/

/-- **C1.** Cancel is sticky: a callback processed while the session's
status is `canceled` performs no state change at all — `process_agent_callback`
returns the unchanged database with an empty commit trace and only a
response; in particular no later `completed`/`failed` callback can change
the session's status after cancel. -/
theorem C1_cancel_sticky (db : Db) (callback : AgentCallbackRequest) (now : Int)
    (sess : SessionRow)
    (hfind : find_session_by_sdk_id_or_uuid db callback.session_id = some sess)
    (hcanceled : sess.status = "canceled") :
    process_agent_callback db callback now =
      .ok { db := db, commits := [],
            response := { session_id := sess.id, status := sess.status,
                          callback_status := some callback.status } } := by
  unfold process_agent_callback
  rw [hfind]
  simp [hcanceled, pure, Except.pure]

def c1Session : SessionRow := { id := "s1", user_id := "u1", status := "canceled" }

def c1Db : Db :=
  { sessions := [c1Session],
    runs := [{ id := 1, session_id := "s1", status := "running", created_at := 10 }] }

def c1Callback : AgentCallbackRequest :=
  { session_id := "s1", status := .completed, progress := some 100 }

/-- Witness for C1: a concrete canceled session receiving a `completed`
callback; the database comes back unchanged. -/
theorem C1_cancel_sticky_witness :
    process_agent_callback c1Db c1Callback 50 =
      .ok { db := c1Db, commits := [],
            response := { session_id := "s1", status := "canceled",
                          callback_status := some .completed } } :=
  C1_cancel_sticky c1Db c1Callback 50 c1Session rfl rfl

/-! ## Claim C4: tool-execution upsert tolerates result-before-use -/

theorem updateFirst_append_of_none {α : Type} (p : α → Bool) (f : α → α)
    (l₁ l₂ : List α) (h : l₁.find? p = none) :
    updateFirst p f (l₁ ++ l₂) = l₁ ++ updateFirst p f l₂ := by
  induction l₁ with
  | nil => rfl
  | cons x xs ih =>
    have hx : p x = false := by
      have := List.find?_eq_none.mp h x (List.mem_cons_self _ _)
      simpa using this
    have hxs : xs.find? p = none := by
      rw [List.find?_cons_of_neg] at h
      · exact h
      · simp [hx]
    simp [updateFirst, hx, ih hxs]

theorem filter_eq_nil_of_find?_none {α : Type} (p : α → Bool) (l : List α)
    (h : l.find? p = none) : l.filter p = [] :=
  List.filter_eq_nil_iff.mpr (fun x hx => by
    have := List.find?_eq_none.mp h x hx
    simpa using this)

/-- **C4.** Result-before-use tolerance: a `ToolResultBlock` whose
`tool_use_id` has no existing execution creates a placeholder row
(`tool_name = "unknown"`, `tool_output = {content: payload}` even for a
null payload); a later `ToolUseBlock` with the same id updates that same
row's name and input, so after both exactly one execution exists for
`(session_id, tool_use_id)`, carrying the use's name and input together
with the result's output and error flag. -/
theorem C4_result_before_use
    (texs : List ToolExecutionRow) (sid tid name : String)
    (payload inputV : JVal) (err : Bool) (m1 m2 : Nat) (now1 now2 : Int)
    (hnone : ToolExecutionRepository.get_by_session_and_tool_use_id texs sid (.str tid) = none)
    (htid : tid ≠ "") (hname : name ≠ "") :
    (extract_tool_block_step now2 sid m2
        (extract_tool_block_step now1 sid m1 texs
          (.obj [("_type", .str "ToolResultBlock"), ("tool_use_id", .str tid),
                 ("content", payload), ("is_error", .bool err)]))
        (.obj [("_type", .str "ToolUseBlock"), ("id", .str tid),
               ("name", .str name), ("input", inputV)])).filter
      (fun t => t.session_id = sid && jvalBeq t.tool_use_id (.str tid)) =
      [{ session_id := sid, message_id := m2, tool_use_id := .str tid,
         tool_name := .str name, tool_input := some inputV,
         tool_output := some (.obj [("content", payload)]),
         result_message_id := some m1, is_error := err,
         duration_ms := none, created_at := now1 }] := by
  have htid' : tid.isEmpty = false := by
    cases h : tid.isEmpty
    · rfl
    · exact absurd ((String.isEmpty_iff tid).mp (by simp [h])) htid
  have hname' : name.isEmpty = false := by
    cases h : name.isEmpty
    · rfl
    · exact absurd ((String.isEmpty_iff name).mp (by simp [h])) hname
  have hc1 : pyContains "ToolResultBlock" "ToolUseBlock" = false := by decide
  have hc2 : pyContains "ToolResultBlock" "ToolResultBlock" = true := by decide
  have hc3 : pyContains "ToolUseBlock" "ToolUseBlock" = true := by decide
  have hstep1 : extract_tool_block_step now1 sid m1 texs
      (.obj [("_type", .str "ToolResultBlock"), ("tool_use_id", .str tid),
             ("content", payload), ("is_error", .bool err)]) =
      texs ++ [{ session_id := sid, message_id := m1, tool_use_id := .str tid,
                 tool_name := .str "unknown", tool_input := none,
                 tool_output := some (.obj [("content", payload)]),
                 result_message_id := some m1, is_error := err,
                 duration_ms := none, created_at := now1 }] := by
    simp [extract_tool_block_step, dictGet, jStrDefault, hc1, hc2, pyTruthy,
      htid', hnone]
  rw [hstep1]
  have hfindp : texs.find?
      (fun t => t.session_id = sid && jvalBeq t.tool_use_id (.str tid)) = none := hnone
  have hstep2 : extract_tool_block_step now2 sid m2
      (texs ++ [{ session_id := sid, message_id := m1, tool_use_id := .str tid,
                  tool_name := .str "unknown", tool_input := none,
                  tool_output := some (.obj [("content", payload)]),
                  result_message_id := some m1, is_error := err,
                  duration_ms := none, created_at := now1 }])
      (.obj [("_type", .str "ToolUseBlock"), ("id", .str tid),
             ("name", .str name), ("input", inputV)]) =
      texs ++ [{ session_id := sid, message_id := m2, tool_use_id := .str tid,
                 tool_name := .str name, tool_input := some inputV,
                 tool_output := some (.obj [("content", payload)]),
                 result_message_id := some m1, is_error := err,
                 duration_ms := none, created_at := now1 }] := by
    simp [extract_tool_block_step, dictGet, jStrDefault, hc3, pyTruthy, htid', hname',
      ToolExecutionRepository.get_by_session_and_tool_use_id, List.find?_append, hfindp,
      updateFirst_append_of_none _ _ _ _ hfindp, updateFirst, jvalBeq]
  rw [hstep2]
  rw [List.filter_append, filter_eq_nil_of_find?_none _ _ hfindp]
  simp [jvalBeq]

def c4InitialTexs : List ToolExecutionRow :=
  [{ session_id := "other", message_id := 1, tool_use_id := .str "t1",
     tool_name := .str "Read", created_at := 0 }]

/-- Witness for C4: a concrete result-then-use pair on id `t1` (with a null
payload) against a table holding an unrelated session's execution. -/
theorem C4_result_before_use_witness :
    (extract_tool_block_step 20 "s1" 8
        (extract_tool_block_step 10 "s1" 7 c4InitialTexs
          (.obj [("_type", .str "ToolResultBlock"), ("tool_use_id", .str "t1"),
                 ("content", .null), ("is_error", .bool false)]))
        (.obj [("_type", .str "ToolUseBlock"), ("id", .str "t1"),
               ("name", .str "Read"), ("input", .obj [("path", .str "/f")])])).filter
      (fun t => t.session_id = "s1" && jvalBeq t.tool_use_id (.str "t1")) =
      [{ session_id := "s1", message_id := 8, tool_use_id := .str "t1",
         tool_name := .str "Read", tool_input := some (.obj [("path", .str "/f")]),
         tool_output := some (.obj [("content", .null)]),
         result_message_id := some 7, is_error := false,
         duration_ms := none, created_at := 10 }] :=
  C4_result_before_use c4InitialTexs "s1" "t1" "Read" .null
    (.obj [("path", .str "/f")]) false 7 8 10 20 rfl
    (by decide) (by decide)

/-! ## Claim C7: schedule validation at enqueue -/

/-- **C7.** Schedule validation: `immediate` with a non-null `scheduled_at`
is coerced to mode `scheduled`; mode `scheduled` with a null `scheduled_at`
is a bad request; a naive `scheduled_at` is interpreted in the provided
timezone when one is given (bad request when the zone name is unknown),
otherwise as UTC, and is always converted to UTC (an aware datetime maps to
its UTC instant); mode `nightly` with a non-null `scheduled_at` is a bad
request. -/
theorem C7_schedule_validation (tzdb : String → Option Int) :
    (∀ (req : TaskEnqueueRequest) (m : String) (dt : PyDateTime) (t : Int),
      req.schedule_mode = some m → pyStrip m = "immediate" →
      req.scheduled_at = some dt →
      normalize_scheduled_at tzdb dt req.timezone = .ok t →
      resolve_schedule tzdb req = .ok ("scheduled", some t))
    ∧ (∀ (req : TaskEnqueueRequest) (m : String),
      req.schedule_mode = some m → pyStrip m = "scheduled" →
      req.scheduled_at = none →
      resolve_schedule tzdb req =
        .error ⟨.BAD_REQUEST, "scheduled_at is required when schedule_mode=scheduled"⟩)
    ∧ (∀ (wall off : Int) (tzname : String),
      ¬ (pyStrip tzname).isEmpty → tzdb (pyStrip tzname) = some off →
      normalize_scheduled_at tzdb (.naive wall) (some tzname) = .ok (wall - off))
    ∧ (∀ (wall : Int) (tzname : String),
      ¬ (pyStrip tzname).isEmpty → tzdb (pyStrip tzname) = none →
      normalize_scheduled_at tzdb (.naive wall) (some tzname) =
        .error ⟨.BAD_REQUEST, s!"Invalid timezone: {pyStrip tzname}"⟩)
    ∧ (∀ wall : Int, normalize_scheduled_at tzdb (.naive wall) none = .ok wall)
    ∧ (∀ (utc : Int) (tzname : Option String),
      normalize_scheduled_at tzdb (.aware utc) tzname = .ok utc)
    ∧ (∀ (req : TaskEnqueueRequest) (m : String) (dt : PyDateTime) (t : Int),
      req.schedule_mode = some m → pyStrip m = "nightly" →
      req.scheduled_at = some dt →
      normalize_scheduled_at tzdb dt req.timezone = .ok t →
      resolve_schedule tzdb req =
        .error ⟨.BAD_REQUEST, "scheduled_at cannot be provided when schedule_mode=nightly"⟩) := by
  refine ⟨?_, ?_, ?_, ?_, ?_, ?_, ?_⟩
  · intro req m dt t hmode hm hdt hnorm
    simp only [resolve_schedule, hmode, hm, hdt, hnorm, Except.map]
    rfl
  · intro req m hmode hm hdt
    simp only [resolve_schedule, hmode, hm, hdt]
    rfl
  · intro wall off tzname hne hoff
    simp only [normalize_scheduled_at, Option.getD]
    rw [if_pos hne, hoff]
  · intro wall tzname hne hnone
    simp only [normalize_scheduled_at, Option.getD]
    rw [if_pos hne, hnone]
  · intro wall
    rfl
  · intro utc tzname
    rfl
  · intro req m dt t hmode hm hdt hnorm
    simp only [resolve_schedule, hmode, hm, hdt, hnorm, Except.map]
    rfl

/-- A concrete timezone database for witnesses: one zone, nine hours east. -/
def tzdb0 : String → Option Int :=
  fun z => if z = "Asia/Tokyo" then some 540 else none

def c7Req : TaskEnqueueRequest :=
  { prompt := "hi", schedule_mode := some "immediate",
    scheduled_at := some (.naive 1000), timezone := some "Asia/Tokyo" }

/-- Witness for C7: an `immediate` request carrying a naive timestamp with a
known timezone is coerced to a UTC-normalized `scheduled` run; the same
naive timestamp with an unknown zone is a bad request. -/
theorem C7_schedule_validation_witness :
    resolve_schedule tzdb0 c7Req = .ok ("scheduled", some 460)
    ∧ normalize_scheduled_at tzdb0 (.naive 1000) (some "Mars/Olympus") =
        .error ⟨.BAD_REQUEST, "Invalid timezone: Mars/Olympus"⟩ :=
  ⟨(C7_schedule_validation tzdb0).1 c7Req "immediate" (.naive 1000) 460 rfl rfl rfl
      (by rw [show (460 : Int) = 1000 - 540 from rfl]
          exact (C7_schedule_validation tzdb0).2.2.1 1000 540 "Asia/Tokyo"
            (by decide) rfl),
    (C7_schedule_validation tzdb0).2.2.2.1 1000 "Mars/Olympus" (by decide) rfl⟩

/-! ## Claim C10: unknown schedule modes pass through -/

theorem dictSet_ne_nil (d : JDict) (k : String) (v : JVal) : dictSet d k v ≠ [] := by
  cases d with
  | nil => simp [dictSet]
  | cons p rest =>
    unfold dictSet
    split
    · simp
    · simp

theorem isEmpty_dictSet (d : JDict) (k : String) (v : JVal) :
    (dictSet d k v).isEmpty = false := by
  cases h : dictSet d k v
  · exact absurd h (dictSet_ne_nil d k v)
  · rfl

theorem matchSel_isEmpty (sel : Option (List Int)) (A : JDict)
    (f : List Int → JVal) (c : JVal) :
    (List.isEmpty (match sel with
      | some ids => dictSet A "subagent_ids" (f ids)
      | none => dictSet A "subagent_ids" c)) = false := by
  cases sel <;> simp [isEmpty_dictSet]

/-- `_build_config_snapshot` always produces a snapshot: the final
`subagent_ids` write makes the dict non-empty, so the trailing
`or None` never fires. -/
theorem build_config_snapshot_isSome (db : Db) (user_id : String)
    (tc : Option TaskConfig) (base : Option JDict) :
    ∃ cfg, build_config_snapshot db user_id tc base = some cfg := by
  unfold build_config_snapshot
  dsimp only
  rw [matchSel_isEmpty]
  exact ⟨_, rfl⟩

theorem apply_project_repo_defaults_none (c : Option JDict) :
    apply_project_repo_defaults c none = c := by
  cases c <;> rfl

/-- **C10.** (Implicit.)  Enqueue accepts any non-blank schedule mode: for a
stripped mode other than `immediate`/`scheduled`/`nightly`,
`_resolve_schedule` returns that mode unchanged with the normalized
`scheduled_at`, and `enqueue_task` creates a queued run carrying it; only an
empty or whitespace-only mode is rejected with a bad request. -/
theorem C10_unknown_mode_accepted (db : Db) (user_id : String)
    (req : TaskEnqueueRequest) (tzdb : String → Option Int) (now : Int)
    (nsid : String) (m : String)
    (hmode : req.schedule_mode = some m)
    (hm1 : pyStrip m ≠ "immediate") (hm2 : pyStrip m ≠ "scheduled")
    (hm3 : pyStrip m ≠ "nightly") (hm4 : pyStrip m ≠ "")
    (hnorm : ∀ dt, req.scheduled_at = some dt →
      ∃ t, normalize_scheduled_at tzdb dt req.timezone = .ok t)
    (hsess : req.session_id = none) (hproj : req.project_id = none)
    (hprompt : ¬ (pyStrip req.prompt).isEmpty)
    (hperm : req.permission_mode = none) :
    (∃ topt, resolve_schedule tzdb req = .ok (pyStrip m, topt)
      ∧ ∃ db' resp, enqueue_task db user_id req tzdb now nsid = .ok (db', resp)
        ∧ ∃ run, run ∈ db'.runs ∧ run.id = resp.run_id
          ∧ run.schedule_mode = pyStrip m ∧ run.scheduled_at = topt
          ∧ run.status = "queued")
    ∧ (∀ req' : TaskEnqueueRequest,
        (match req'.schedule_mode with
          | none => True
          | some s => pyStrip s = "") →
        resolve_schedule tzdb req' =
          .error ⟨.BAD_REQUEST, "schedule_mode cannot be empty"⟩) := by
  have hie : (pyStrip m).isEmpty = false := by
    cases h : (pyStrip m).isEmpty
    · rfl
    · exact absurd ((String.isEmpty_iff _).mp (by simp [h])) hm4
  obtain ⟨topt, hres⟩ : ∃ topt, resolve_schedule tzdb req = .ok (pyStrip m, topt) := by
    cases hdt : req.scheduled_at with
    | none =>
      refine ⟨none, ?_⟩
      simp only [resolve_schedule, hmode, hdt, hie, Bool.false_eq_true, if_false,
        if_neg hm2, if_neg hm1, if_neg hm3]
      rfl
    | some dt =>
      obtain ⟨t, ht⟩ := hnorm dt hdt
      refine ⟨some t, ?_⟩
      simp only [resolve_schedule, hmode, hdt, ht, Except.map, hie, Bool.false_eq_true,
        if_false, if_neg hm2, if_neg hm1, if_neg hm3]
      rfl
  have hp : (pyStrip req.prompt).isEmpty = false := by
    cases h : (pyStrip req.prompt).isEmpty
    · rfl
    · exact absurd h hprompt
  obtain ⟨cfg, hcfg⟩ := build_config_snapshot_isSome db user_id req.config (some [])
  refine ⟨⟨topt, hres, ?_⟩, ?_⟩
  · simp only [enqueue_task, hproj, hsess, hcfg, apply_project_repo_defaults_none,
      hres, hperm, hp, Bool.false_eq_true, if_false]
    refine ⟨_, _, rfl, _, List.mem_append_right _ (List.mem_singleton_self _),
      rfl, rfl, rfl, rfl⟩
  · intro req' hre
    cases hm : req'.schedule_mode with
    | none =>
      simp only [resolve_schedule, hm]
      rfl
    | some s =>
      simp only [hm] at hre
      simp only [resolve_schedule, hm, hre]
      rfl

def c10Req : TaskEnqueueRequest := { prompt := "hi", schedule_mode := some "weekly" }

/-- Witness for C10: mode `weekly` flows through resolution and enqueue into
a queued run. -/
theorem C10_unknown_mode_accepted_witness :
    ∃ topt, resolve_schedule tzdb0 c10Req = .ok ("weekly", topt)
      ∧ ∃ db' resp, enqueue_task {} "u1" c10Req tzdb0 7 "s-new" = .ok (db', resp)
        ∧ ∃ run, run ∈ db'.runs ∧ run.id = resp.run_id
          ∧ run.schedule_mode = "weekly" ∧ run.scheduled_at = topt
          ∧ run.status = "queued" :=
  (C10_unknown_mode_accepted {} "u1" c10Req tzdb0 7 "s-new" "weekly" rfl
    (by decide) (by decide) (by decide) (by decide)
    (fun dt h => nomatch h) rfl rfl (by decide) rfl).1

/-! ## Claim C9: the decrypted environment map -/

/-- The contribution of one env-var row: its decrypted value when decryption
succeeds and the value is not whitespace-only, else nothing. -/
def qualifyVal (dec : String → Option String) (e : EnvVarRow) : Option String :=
  (dec e.value_ciphertext).bind (fun v => if (pyStrip v).isEmpty then none else some v)

theorem find?_map_keyUpdate {β : Type} (l : List (String × β)) (k : String) (v : β) :
    (l.map (fun p => if p.1 = k then (k, v) else p)).find? (fun p => p.1 = k) =
      if (l.find? (fun p => p.1 = k)).isSome then some (k, v) else none := by
  induction l with
  | nil => simp
  | cons q rest ih =>
    by_cases hq : q.1 = k
    · rw [List.map_cons, if_pos hq, List.find?_cons_of_pos _ (by simp),
        List.find?_cons_of_pos _ (by simpa using hq)]
      simp
    · rw [List.map_cons, if_neg hq, List.find?_cons_of_neg _ (by simpa using hq),
        List.find?_cons_of_neg _ (by simpa using hq), ih]

theorem find?_map_keyUpdate_ne {β : Type} (l : List (String × β)) (k' k : String)
    (v : β) (hne : k' ≠ k) :
    (l.map (fun p => if p.1 = k' then (k', v) else p)).find? (fun p => p.1 = k) =
      l.find? (fun p => p.1 = k) := by
  induction l with
  | nil => simp
  | cons q rest ih =>
    by_cases hq : q.1 = k'
    · rw [List.map_cons, if_pos hq, List.find?_cons_of_neg _ (by simpa using hne),
        List.find?_cons_of_neg _ (by simp [hq, hne]), ih]
    · rw [List.map_cons, if_neg hq]
      by_cases hqk : q.1 = k
      · rw [List.find?_cons_of_pos _ (by simpa using hqk),
          List.find?_cons_of_pos _ (by simpa using hqk)]
      · rw [List.find?_cons_of_neg _ (by simpa using hqk),
          List.find?_cons_of_neg _ (by simpa using hqk), ih]

theorem strDictGet_set_self (m : List (String × String)) (k v : String) :
    strDictGet (strDictSet m k v) k = some v := by
  unfold strDictSet strDictGet
  split
  · rename_i h
    rw [find?_map_keyUpdate, if_pos h]
    rfl
  · rename_i h
    have hn : List.find? (fun p => p.1 = k) m = none := by
      cases hf : List.find? (fun p => p.1 = k) m
      · rfl
      · exact absurd (by rw [hf]; rfl) h
    rw [List.find?_append, hn]
    simp [List.find?]

theorem strDictGet_set_ne (m : List (String × String)) (k' k v : String)
    (hne : k' ≠ k) :
    strDictGet (strDictSet m k' v) k = strDictGet m k := by
  unfold strDictSet strDictGet
  split
  · rw [find?_map_keyUpdate_ne _ _ _ _ hne]
  · rw [List.find?_append]
    have : ([(k', v)].find? (fun p => p.1 = k)) = none := by simp [List.find?, hne]
    rw [this, Option.or_none]

theorem envMapStep_get_self (dec : String → Option String)
    (m : List (String × String)) (e : EnvVarRow) (k : String) (hk : e.key = k) :
    strDictGet (envMapStep dec m e) k = (qualifyVal dec e).or (strDictGet m k) := by
  subst hk
  unfold envMapStep qualifyVal
  cases hdec : dec e.value_ciphertext with
  | none => simp
  | some v =>
    by_cases hv : (pyStrip v).isEmpty
    · simp [hv]
    · simp [hv, strDictGet_set_self]

theorem envMapStep_get_ne (dec : String → Option String)
    (m : List (String × String)) (e : EnvVarRow) (k : String) (hk : e.key ≠ k) :
    strDictGet (envMapStep dec m e) k = strDictGet m k := by
  unfold envMapStep
  cases hdec : dec e.value_ciphertext with
  | none => rfl
  | some v =>
    by_cases hv : (pyStrip v).isEmpty
    · simp [hv]
    · simp [hv, strDictGet_set_ne _ _ _ _ hk]

theorem envMap_foldl_get (dec : String → Option String) (L : List EnvVarRow)
    (m : List (String × String)) (k : String)
    (hnd : (L.map (fun e => e.key)).Nodup) :
    strDictGet (L.foldl (envMapStep dec) m) k =
      ((L.find? (fun e => e.key = k)).bind (qualifyVal dec)).or (strDictGet m k) := by
  induction L generalizing m with
  | nil => simp
  | cons e rest ih =>
    simp only [List.map_cons, List.nodup_cons] at hnd
    obtain ⟨hnotin, hndr⟩ := hnd
    by_cases hk : e.key = k
    · have hfr : rest.find? (fun x => x.key = k) = none := by
        apply List.find?_eq_none.mpr
        intro x hx
        simp only [decide_eq_true_eq]
        intro hxk
        exact hnotin (by
          rw [hk, ← hxk]
          exact List.mem_map_of_mem _ hx)
      rw [List.foldl_cons, ih (envMapStep dec m e) hndr, hfr,
        List.find?_cons_of_pos _ (by simpa using hk),
        envMapStep_get_self dec m e k hk]
      simp
    · rw [List.foldl_cons, ih (envMapStep dec m e) hndr,
        envMapStep_get_ne dec m e k hk,
        List.find?_cons_of_neg _ (by simpa using hk)]

/-- **C9 (amended).** `get_env_map` is characterized per key: the user's
value is returned when it decrypts to a non-whitespace string; otherwise
the system's value when that one qualifies; a key neither of whose scoped
values qualifies is absent.  (User shadows system only among qualifying
values — an empty or undecryptable user value falls back to the system's.) -/
theorem C9_env_map_characterization (db : Db) (dec : String → Option String)
    (user_id : String) (k : String)
    (hsys : ((EnvVarRepository.list_by_user_and_scope db SYSTEM_USER_ID "system").map
      (fun e => e.key)).Nodup)
    (husr : ((EnvVarRepository.list_by_user_and_scope db user_id "user").map
      (fun e => e.key)).Nodup) :
    strDictGet (get_env_map db dec user_id) k =
      (((EnvVarRepository.list_by_user_and_scope db user_id "user").find?
          (fun e => e.key = k)).bind (qualifyVal dec)).or
        (((EnvVarRepository.list_by_user_and_scope db SYSTEM_USER_ID "system").find?
          (fun e => e.key = k)).bind (qualifyVal dec)) := by
  unfold get_env_map
  rw [envMap_foldl_get dec _ _ k husr, envMap_foldl_get dec _ _ k hsys]
  simp [strDictGet]

def c9Db : Db := { env_vars := [
  { id := 1, user_id := "__system__", key := "K", value_ciphertext := "c1",
    scope := "system", created_at := 0 },
  { id := 2, user_id := "u1", key := "K", value_ciphertext := "c2",
    scope := "user", created_at := 0 }] }

def c9Dec : String → Option String := fun c => if c = "c1" then some "sysv" else none

def c9UserRow : EnvVarRow :=
  { id := 2, user_id := "u1", key := "K", value_ciphertext := "c2",
    scope := "user", created_at := 0 }

/-- Counterexample to C9 as stated: the key `K` exists in both scopes, the
user's value is undecryptable, yet `K` is not absent from the map — the
system's value is returned (so neither "the user's value is the one
returned" nor "every key whose value is … undecryptable is absent" holds). -/
theorem C9_counterexample :
    ¬ (∀ e ∈ EnvVarRepository.list_by_user_and_scope c9Db "u1" "user",
        qualifyVal c9Dec e = none →
        strDictGet (get_env_map c9Db c9Dec "u1") e.key = none) := by
  intro h
  have hmem : c9UserRow ∈ EnvVarRepository.list_by_user_and_scope c9Db "u1" "user" := by
    decide
  have := h _ hmem rfl
  exact absurd this (by decide)

/-- Witness for the amended C9: at the counterexample database the
characterization yields the system's value. -/
theorem C9_env_map_characterization_witness :
    strDictGet (get_env_map c9Db c9Dec "u1") "K" = some "sysv" :=
  (C9_env_map_characterization c9Db c9Dec "u1" "K" (by decide) (by decide)).trans rfl

/-! ## Claim C8: config merge at enqueue -/

theorem dictGet_set_self (d : JDict) (k : String) (v : JVal) :
    dictGet (dictSet d k v) k = some v := by
  unfold dictSet dictGet
  split
  · rename_i h
    rw [find?_map_keyUpdate, if_pos h]
    rfl
  · rename_i h
    have hn : List.find? (fun p => p.1 = k) d = none := by
      cases hf : List.find? (fun p => p.1 = k) d
      · rfl
      · exact absurd (by rw [hf]; rfl) h
    rw [List.find?_append, hn]
    simp [List.find?]

theorem dictGet_set_ne (d : JDict) (k' k : String) (v : JVal) (hne : k' ≠ k) :
    dictGet (dictSet d k' v) k = dictGet d k := by
  unfold dictSet dictGet
  split
  · rw [find?_map_keyUpdate_ne _ _ _ _ hne]
  · rw [List.find?_append]
    have : ([(k', v)].find? (fun p => p.1 = k)) = none := by simp [List.find?, hne]
    rw [this, Option.or_none]

theorem find?_filter_of_imp {α : Type} (l : List α) (p q : α → Bool)
    (h : ∀ x, p x = true → q x = true) :
    (l.filter q).find? p = l.find? p := by
  induction l with
  | nil => rfl
  | cons x xs ih =>
    by_cases hp : p x
    · rw [List.find?_cons_of_pos _ hp, List.filter_cons_of_pos (h x hp),
        List.find?_cons_of_pos _ hp]
    · by_cases hq : q x
      · rw [List.filter_cons_of_pos hq, List.find?_cons_of_neg _ (by simpa using hp),
          List.find?_cons_of_neg _ (by simpa using hp), ih]
      · rw [List.filter_cons_of_neg (by simpa using hq),
          List.find?_cons_of_neg _ (by simpa using hp), ih]

theorem dictGet_pop_self (d : JDict) (k : String) :
    dictGet (dictPop d k) k = none := by
  unfold dictPop dictGet
  rw [List.find?_eq_none.mpr]
  · rfl
  · intro p hp
    have := List.of_mem_filter hp
    simp only [decide_eq_true_eq] at this ⊢
    simpa using this

theorem dictGet_pop_ne (d : JDict) (k' k : String) (hne : k' ≠ k) :
    dictGet (dictPop d k') k = dictGet d k := by
  unfold dictPop dictGet
  rw [find?_filter_of_imp]
  intro x hx
  simp only [decide_eq_true_eq] at hx ⊢
  rw [hx]
  exact fun h => hne h.symm

theorem dictGet_cons (k₀ : String) (v₀ : JVal) (rest : JDict) (k : String) :
    dictGet ((k₀, v₀) :: rest) k = if k₀ = k then some v₀ else dictGet rest k := by
  unfold dictGet
  by_cases h : k₀ = k
  · rw [List.find?_cons_of_pos _ (by simpa using h), if_pos h]
    rfl
  · rw [List.find?_cons_of_neg _ (by simpa using h), if_neg h]

theorem dictGet_eq_none_of_not_mem_keys (d : JDict) (k : String)
    (h : k ∉ d.map Prod.fst) : dictGet d k = none := by
  unfold dictGet
  rw [List.find?_eq_none.mpr]
  · rfl
  · intro p hp
    simp only [decide_eq_true_eq]
    intro hk
    exact h (hk ▸ List.mem_map_of_mem _ hp)

theorem nodup_keys_dictPop (d : JDict) (k' : String)
    (h : (d.map Prod.fst).Nodup) : ((dictPop d k').map Prod.fst).Nodup :=
  ((List.filter_sublist d).map Prod.fst).nodup h

theorem mergeConfigStep_get_ne (m : JDict) (k₀ k : String) (v₀ : JVal)
    (h : k₀ ≠ k) : dictGet (mergeConfigStep m (k₀, v₀)) k = dictGet m k := by
  cases v₀ with
  | null => exact dictGet_pop_ne m k₀ k h
  | obj o =>
    unfold mergeConfigStep
    dsimp only
    split
    · exact dictGet_set_ne m k₀ k _ h
    · exact dictGet_set_ne m k₀ k _ h
  | bool b => exact dictGet_set_ne m k₀ k _ h
  | num n => exact dictGet_set_ne m k₀ k _ h
  | str s => exact dictGet_set_ne m k₀ k _ h
  | arr xs => exact dictGet_set_ne m k₀ k _ h

/-- Per-key behaviour of the `_merge_config_map` fold, for overrides with
distinct keys (as `model_dump` produces): an explicitly-null key is removed,
a dict over a dict shallow-merges, any other value replaces, and untouched
keys keep the defaults' value. -/
theorem merge_foldl_get (ov : JDict) (m : JDict) (k : String)
    (hnd : (ov.map Prod.fst).Nodup) :
    dictGet (ov.foldl mergeConfigStep m) k =
      match dictGet ov k with
      | none => dictGet m k
      | some .null => none
      | some (.obj o) =>
        match dictGet m k with
        | some (.obj b) => some (.obj (dictUnion b o))
        | _ => some (.obj o)
      | some v => some v := by
  induction ov generalizing m with
  | nil => simp [dictGet]
  | cons kv rest ih =>
    obtain ⟨k₀, v₀⟩ := kv
    simp only [List.map_cons, List.nodup_cons] at hnd
    obtain ⟨hnotin, hndr⟩ := hnd
    rw [List.foldl_cons, ih _ hndr, dictGet_cons]
    by_cases hk : k₀ = k
    · subst hk
      have hrest : dictGet rest k₀ = none :=
        dictGet_eq_none_of_not_mem_keys rest k₀ hnotin
      rw [hrest, if_pos rfl]
      cases v₀ with
      | null => exact dictGet_pop_self m k₀
      | obj o =>
        unfold mergeConfigStep
        dsimp only
        cases hm : dictGet m k₀ with
        | none => simp only [hm, dictGet_set_self]
        | some w => cases w <;> simp only [hm, dictGet_set_self]
      | bool b => exact dictGet_set_self m k₀ _
      | num n => exact dictGet_set_self m k₀ _
      | str s => exact dictGet_set_self m k₀ _
      | arr xs => exact dictGet_set_self m k₀ _
    · rw [if_neg hk, mergeConfigStep_get_ne m k₀ k v₀ hk]

def scrubbedBaseKeys : List String := ["mcp_config", "skill_files", "input_files"]

def extractedOverrideKeys : List String := ["input_files", "mcp_config", "skill_config"]

/-- Modelled from the spec: the claim's literal merge semantics — after the
base scrub, *every* key explicitly set in the overrides follows the
null-removes / dict-merges / otherwise-replaces rule, with no key extracted
beforehand.  Refinement target for C8. -/
def claimMergeC8 (base overrides : JDict) : JDict :=
  overrides.foldl mergeConfigStep (scrubBaseConfig base)

/-- The merge stage of `_build_config_snapshot` in isolation: scrub the
base, drop `input_files` and extract the `mcp_config`/`skill_config`
toggles from the overrides, then `_merge_config_map`. -/
def enqueueMergeStage (base fields_set : JDict) : JDict :=
  merge_config_map (scrubBaseConfig base) (splitOverrides fields_set).2.2

/-- Counterexample to C8 as stated: an explicitly-set `mcp_config` override
should, per the claim, replace the (scrubbed) base value and appear in the
result; the code extracts it before the merge, so the merged snapshot (and
the full `_build_config_snapshot` output) has no `mcp_config` key, while the
claim's merge does. -/
theorem C8_counterexample :
    dictGet (enqueueMergeStage [] [("mcp_config", .obj [("1", .bool true)])])
        "mcp_config" = none
    ∧ dictGet (claimMergeC8 [] [("mcp_config", .obj [("1", .bool true)])])
        "mcp_config" = some (.obj [("1", .bool true)])
    ∧ dictGet ((build_config_snapshot {} "u1"
          (some { fields_set := [("mcp_config", .obj [("1", .bool true)])] })
          (some [])).getD []) "mcp_config" = none :=
  ⟨rfl, rfl, rfl⟩

/-- The amended per-key merge semantics: `mcp_config`/`skill_files`/
`input_files` are removed from the base; `input_files`/`mcp_config`/
`skill_config` are extracted from the overrides and never merged as plain
keys; every other explicitly-set key follows null-removes /
dict-shallow-merges / otherwise-replaces; untouched keys keep the
(scrubbed) base value. -/
def mergedKeySpec (base overrides : JDict) (k : String) : Option JVal :=
  let baseVal := if k ∈ scrubbedBaseKeys then none else dictGet base k
  if k ∈ extractedOverrideKeys then baseVal
  else
    match dictGet overrides k with
    | none => baseVal
    | some .null => none
    | some (.obj o) =>
      match baseVal with
      | some (.obj b) => some (.obj (dictUnion b o))
      | _ => some (.obj o)
    | some v => some v

theorem merge_config_map_eq_foldl (m ov : JDict) :
    merge_config_map m ov = ov.foldl mergeConfigStep m := by
  cases ov <;> rfl

theorem dictGet_scrubBaseConfig (base : JDict) (k : String) :
    dictGet (scrubBaseConfig base) k =
      if k ∈ scrubbedBaseKeys then none else dictGet base k := by
  unfold scrubBaseConfig
  by_cases h1 : k = "input_files"
  · subst h1
    rw [dictGet_pop_self]
    simp [scrubbedBaseKeys]
  · rw [dictGet_pop_ne _ _ _ (fun h => h1 h.symm)]
    by_cases h2 : k = "skill_files"
    · subst h2
      rw [dictGet_pop_self]
      simp [scrubbedBaseKeys]
    · rw [dictGet_pop_ne _ _ _ (fun h => h2 h.symm)]
      by_cases h3 : k = "mcp_config"
      · subst h3
        rw [dictGet_pop_self]
        simp [scrubbedBaseKeys]
      · rw [dictGet_pop_ne _ _ _ (fun h => h3 h.symm)]
        rw [if_neg (by simp [scrubbedBaseKeys, h1, h2, h3])]

theorem splitOverrides_rc (ov : JDict) :
    (splitOverrides ov).2.2 =
      dictPop (dictPop (dictPop ov "input_files") "mcp_config") "skill_config" := by
  rfl

theorem dictGet_splitOverrides (ov : JDict) (k : String) :
    dictGet (splitOverrides ov).2.2 k =
      if k ∈ extractedOverrideKeys then none else dictGet ov k := by
  rw [splitOverrides_rc]
  by_cases h1 : k = "skill_config"
  · subst h1
    rw [dictGet_pop_self]
    simp [extractedOverrideKeys]
  · rw [dictGet_pop_ne _ _ _ (fun h => h1 h.symm)]
    by_cases h2 : k = "mcp_config"
    · subst h2
      rw [dictGet_pop_self]
      simp [extractedOverrideKeys]
    · rw [dictGet_pop_ne _ _ _ (fun h => h2 h.symm)]
      by_cases h3 : k = "input_files"
      · subst h3
        rw [dictGet_pop_self]
        simp [extractedOverrideKeys]
      · rw [dictGet_pop_ne _ _ _ (fun h => h3 h.symm)]
        rw [if_neg (by simp [extractedOverrideKeys, h1, h2, h3])]

theorem nodup_keys_splitOverrides (ov : JDict)
    (h : (ov.map Prod.fst).Nodup) :
    (((splitOverrides ov).2.2).map Prod.fst).Nodup := by
  rw [splitOverrides_rc]
  exact nodup_keys_dictPop _ _ (nodup_keys_dictPop _ _ (nodup_keys_dictPop _ _ h))

/-- Per-key behaviour of the enqueue merge stage, matching
`mergedKeySpec`. -/
theorem enqueueMergeStage_get (base ov : JDict) (k : String)
    (hnd : (ov.map Prod.fst).Nodup) :
    dictGet (enqueueMergeStage base ov) k = mergedKeySpec base ov k := by
  unfold enqueueMergeStage mergedKeySpec
  rw [merge_config_map_eq_foldl,
    merge_foldl_get _ _ _ (nodup_keys_splitOverrides ov hnd),
    dictGet_splitOverrides, dictGet_scrubBaseConfig]
  by_cases hmem : k ∈ extractedOverrideKeys
  · simp only [if_pos hmem]
  · simp only [if_neg hmem]

/-- **C8 (amended).** Per-key characterization of the config merge inside
`_build_config_snapshot`: for every key other than the re-materialized
`mcp_server_ids`/`skill_ids`/`subagent_ids`, the snapshot agrees with
`mergedKeySpec` — base scrubbed of `mcp_config`/`skill_files`/`input_files`,
overrides with `input_files`/`mcp_config`/`skill_config` extracted (never
merged as plain keys), null removes, dict-over-dict shallow-merges, other
values replace, untouched keys keep the base value. -/
theorem C8_config_merge_characterization (db : Db) (user_id : String)
    (base ov : JDict) (k : String)
    (hnd : (ov.map Prod.fst).Nodup)
    (hk : k ∉ ["mcp_server_ids", "skill_ids", "subagent_ids"]) :
    dictGet ((build_config_snapshot db user_id (some { fields_set := ov })
        (some base)).getD []) k = mergedKeySpec base ov k := by
  have h1 : "mcp_server_ids" ≠ k := fun h => hk (by rw [← h]; simp)
  have h2 : "skill_ids" ≠ k := fun h => hk (by rw [← h]; simp)
  have h3 : "subagent_ids" ≠ k := fun h => hk (by rw [← h]; simp)
  unfold build_config_snapshot
  dsimp only
  rw [matchSel_isEmpty, if_neg (by simp), Option.getD_some]
  repeat' split
  all_goals rw [dictGet_set_ne _ _ _ _ h3, dictGet_set_ne _ _ _ _ h2,
    dictGet_set_ne _ _ _ _ h1]
  all_goals exact enqueueMergeStage_get base ov k hnd

/-- Witness for the amended C8: one concrete merge exercising null-removal,
shallow dict merge, replacement and base-key survival. -/
theorem C8_config_merge_characterization_witness :
    dictGet ((build_config_snapshot {} "u1"
        (some { fields_set := [("repo_url", .str "https://r"), ("browser_enabled", .null)] })
        (some [("browser_enabled", .bool true), ("git_branch", .str "main")])).getD [])
      "git_branch" = some (.str "main")
    ∧ mergedKeySpec [("browser_enabled", .bool true), ("git_branch", .str "main")]
        [("repo_url", .str "https://r"), ("browser_enabled", .null)] "browser_enabled" = none :=
  ⟨(C8_config_merge_characterization {} "u1"
      [("browser_enabled", .bool true), ("git_branch", .str "main")]
      [("repo_url", .str "https://r"), ("browser_enabled", .null)]
      "git_branch" (by decide) (by decide)).trans rfl,
   rfl⟩

/-! ## Claim C3: cancel_session -/

theorem cancelTaskSync_runs (d : Db) (run : RunRow) :
    (cancelTaskSync d run).runs = d.runs := by
  unfold cancelTaskSync
  repeat' split
  all_goals rfl

theorem cancelTaskSync_uirs (d : Db) (run : RunRow) :
    (cancelTaskSync d run).user_input_requests = d.user_input_requests := by
  unfold cancelTaskSync
  repeat' split
  all_goals rfl

theorem cancelTaskSync_tools (d : Db) (run : RunRow) :
    (cancelTaskSync d run).tool_executions = d.tool_executions := by
  unfold cancelTaskSync
  repeat' split
  all_goals rfl

theorem cancelTaskSync_sessions (d : Db) (run : RunRow) :
    (cancelTaskSync d run).sessions = d.sessions := by
  unfold cancelTaskSync
  repeat' split
  all_goals rfl

theorem foldl_cancelTaskSync_runs (L : List RunRow) (d : Db) :
    (L.foldl (fun d run => cancelTaskSync d { run with status := "canceled" }) d).runs
      = d.runs := by
  induction L generalizing d with
  | nil => rfl
  | cons r rest ih => rw [List.foldl_cons, ih, cancelTaskSync_runs]

theorem foldl_cancelTaskSync_uirs (L : List RunRow) (d : Db) :
    (L.foldl (fun d run => cancelTaskSync d { run with status := "canceled" }) d).user_input_requests
      = d.user_input_requests := by
  induction L generalizing d with
  | nil => rfl
  | cons r rest ih => rw [List.foldl_cons, ih, cancelTaskSync_uirs]

theorem foldl_cancelTaskSync_tools (L : List RunRow) (d : Db) :
    (L.foldl (fun d run => cancelTaskSync d { run with status := "canceled" }) d).tool_executions
      = d.tool_executions := by
  induction L generalizing d with
  | nil => rfl
  | cons r rest ih => rw [List.foldl_cons, ih, cancelTaskSync_tools]

theorem foldl_cancelTaskSync_sessions (L : List RunRow) (d : Db) :
    (L.foldl (fun d run => cancelTaskSync d { run with status := "canceled" }) d).sessions
      = d.sessions := by
  induction L generalizing d with
  | nil => rfl
  | cons r rest ih => rw [List.foldl_cons, ih, cancelTaskSync_sessions]

theorem map_cond_id {α : Type} (p : α → Bool) (f : α → α) (l : List α)
    (h : ∀ x ∈ l, p x = false) :
    l.map (fun x => if p x then f x else x) = l := by
  induction l with
  | nil => rfl
  | cons x xs ih =>
    rw [List.map_cons, if_neg (by simp [h x (List.mem_cons_self _ _)]),
      ih (fun y hy => h y (List.mem_cons_of_mem _ hy))]

/-- **C3.** `cancel_session` invoked by the owner sets every queued/claimed/
running run of the session to `canceled` with `finished_at = now` and a
cleared lease, expires every pending user-input request with
`expires_at = now`, closes every tool execution with null `tool_output`
(`is_error = true`, `tool_output = {content: "Canceled" + optional reason}`,
`duration_ms` filled when unset), and sets the session's status to
`canceled`; a non-owner gets a forbidden error and nothing changes. -/
theorem C3_cancel_session (db : Db) (session_id user_id : String)
    (reason : Option String) (now : Int) (sess : SessionRow)
    (hfind : SessionRepository.get_by_id db session_id = some sess) :
    (sess.user_id = user_id →
      ∃ db' sess' nr nq,
        cancel_session db session_id user_id reason now = .ok (db', sess', nr, nq)
        ∧ db'.runs = db.runs.map (fun r =>
            if unfinishedRunPred session_id r then cancelRunUpdate now r else r)
        ∧ db'.user_input_requests = db.user_input_requests.map (fun e =>
            if UserInputRequestRepository.pendingPred session_id e then
              { e with status := "expired", expires_at := some now } else e)
        ∧ db'.tool_executions = db.tool_executions.map (fun t =>
            if ToolExecutionRepository.unfinishedPred session_id t then
              { t with is_error := true,
                       tool_output := some (.obj [("content",
                         .str ("Canceled" ++ cancelReasonSuffix reason))]),
                       duration_ms := if t.duration_ms.isNone
                         then some (max 0 (now - t.created_at)) else t.duration_ms }
            else t)
        ∧ db'.sessions = db.sessions.map (fun r =>
            if r.id = session_id then { r with status := "canceled" } else r))
    ∧ (sess.user_id ≠ user_id →
      cancel_session db session_id user_id reason now =
        .error ⟨.FORBIDDEN, "Session does not belong to the user"⟩) := by
  have hget : get_session db session_id = .ok sess := by
    unfold get_session
    rw [hfind]
  constructor
  · intro howner
    have hne : ¬ (sess.user_id ≠ user_id) := by simp [howner]
    unfold cancel_session
    simp only [hget]
    rw [if_neg hne]
    refine ⟨_, _, _, _, rfl, ?_, ?_, ?_, ?_⟩
    · dsimp only
      split <;> rw [foldl_cancelTaskSync_runs]
    · dsimp only
      split <;> rw [foldl_cancelTaskSync_uirs]
    · dsimp only
      split
      · rename_i hempty
        rw [foldl_cancelTaskSync_tools] at hempty ⊢
        dsimp only at hempty ⊢
        symm
        apply map_cond_id
        intro t ht
        have hnil := List.isEmpty_iff.mp hempty
        have := List.filter_eq_nil_iff.mp hnil t ht
        simpa using this
      · rw [foldl_cancelTaskSync_tools]
    · dsimp only
      split <;> rw [foldl_cancelTaskSync_sessions]
  · intro hno
    unfold cancel_session
    simp only [hget]
    rw [if_pos hno]

def c3Session : SessionRow := { id := "s1", user_id := "u1", status := "running" }

def c3Db : Db :=
  { sessions := [c3Session],
    runs := [{ id := 1, session_id := "s1", status := "running",
               claimed_by := some "w1", lease_expires_at := some 100,
               created_at := 10 }],
    user_input_requests := [{ id := 1, session_id := "s1", status := "pending",
                              created_at := 5 }],
    tool_executions := [{ session_id := "s1", message_id := 1,
                          tool_use_id := .str "t1", tool_name := .str "Bash",
                          created_at := 20 }] }

/-- Witness for C3: a concrete owner-invoked cancel over a running run, a
pending user-input request and an in-flight tool execution. -/
theorem C3_cancel_session_witness :
    ∃ db' sess' nr nq,
      cancel_session c3Db "s1" "u1" (some " stop ") 50 = .ok (db', sess', nr, nq)
      ∧ db'.runs = c3Db.runs.map (fun r =>
          if unfinishedRunPred "s1" r then cancelRunUpdate 50 r else r)
      ∧ db'.user_input_requests = c3Db.user_input_requests.map (fun e =>
          if UserInputRequestRepository.pendingPred "s1" e then
            { e with status := "expired", expires_at := some 50 } else e)
      ∧ db'.tool_executions = c3Db.tool_executions.map (fun t =>
          if ToolExecutionRepository.unfinishedPred "s1" t then
            { t with is_error := true,
                     tool_output := some (.obj [("content",
                       .str ("Canceled" ++ cancelReasonSuffix (some " stop ")))]),
                     duration_ms := if t.duration_ms.isNone
                       then some (max 0 (50 - t.created_at)) else t.duration_ms }
          else t)
      ∧ db'.sessions = c3Db.sessions.map (fun r =>
          if r.id = "s1" then { r with status := "canceled" } else r) :=
  (C3_cancel_session c3Db "s1" "u1" (some " stop ") 50 c3Session rfl).1 rfl

/-! ## Claim C2: completion callback — pipeline lemmas -/

theorem persist_runs (d : Db) (sid : String) (m : JDict) (now : Int) :
    (persist_message_and_tools d sid m now).runs = d.runs := rfl

theorem persist_sessions (d : Db) (sid : String) (m : JDict) (now : Int) :
    (persist_message_and_tools d sid m now).sessions = d.sessions := rfl

theorem persist_messages (d : Db) (sid : String) (m : JDict) (now : Int) :
    (persist_message_and_tools d sid m now).messages =
      d.messages ++ [({ id := d.next_message_id, session_id := sid,
                        role := extract_role_from_message m, content := .obj m,
                        text_preview := textPreviewOf m } : MessageRow)] := rfl

theorem usage_some_proj (d : Db) (sid : String) (m : JDict) (d' : Db)
    (h : extract_and_persist_usage d sid m = some d') :
    d'.runs = d.runs ∧ d'.sessions = d.sessions ∧ d'.messages = d.messages
      ∧ d'.tool_executions = d.tool_executions := by
  unfold extract_and_persist_usage at h
  dsimp only at h
  by_cases hc : pyContains (jStrDefault (dictGet m "_type") "") "ResultMessage" = true
  · rw [hc] at h
    simp only [Bool.not_true, Bool.false_eq_true, if_false] at h
    split at h
    · split at h
      · exact absurd h (by simp)
      · injection h with h
        subst h
        exact ⟨rfl, rfl, rfl, rfl⟩
    · exact absurd h (by simp)
  · rw [Bool.not_eq_true] at hc
    rw [hc] at h
    simp only [Bool.not_false, if_true] at h
    exact absurd h (by simp)

theorem messageStage_runs (d : Db) (sid : String) (nm : Option JVal) (now : Int) :
    (messageStage d sid nm now).1.runs = d.runs := by
  unfold messageStage
  cases nm with
  | none => rfl
  | some v =>
    cases v with
    | null => rfl
    | bool b => rfl
    | num n => rfl
    | str s => rfl
    | arr xs => rfl
    | obj m =>
      by_cases ht : pyTruthy (.obj m) = true
      · cases hu : extract_and_persist_usage (persist_message_and_tools d sid m now) sid m with
        | none => simp only [if_pos ht, hu]; rfl
        | some d2 =>
          simp only [if_pos ht, hu]
          exact ((usage_some_proj _ _ _ _ hu).1).trans rfl
      · simp only [if_neg ht]

theorem messageStage_sessions (d : Db) (sid : String) (nm : Option JVal) (now : Int) :
    (messageStage d sid nm now).1.sessions = d.sessions := by
  unfold messageStage
  cases nm with
  | none => rfl
  | some v =>
    cases v with
    | null => rfl
    | bool b => rfl
    | num n => rfl
    | str s => rfl
    | arr xs => rfl
    | obj m =>
      by_cases ht : pyTruthy (.obj m) = true
      · cases hu : extract_and_persist_usage (persist_message_and_tools d sid m now) sid m with
        | none => simp only [if_pos ht, hu]; rfl
        | some d2 =>
          simp only [if_pos ht, hu]
          exact ((usage_some_proj _ _ _ _ hu).2.1).trans rfl
      · simp only [if_neg ht]

theorem sync_sessions (d : Db) (run : RunRow) :
    (sync_scheduled_task_last_status d run).sessions = d.sessions := by
  unfold sync_scheduled_task_last_status
  repeat' split
  all_goals rfl

theorem sync_runs (d : Db) (run : RunRow) :
    (sync_scheduled_task_last_status d run).runs = d.runs := by
  unfold sync_scheduled_task_last_status
  repeat' split
  all_goals rfl

theorem sync_messages (d : Db) (run : RunRow) :
    (sync_scheduled_task_last_status d run).messages = d.messages := by
  unfold sync_scheduled_task_last_status
  repeat' split
  all_goals rfl

theorem sync_tools (d : Db) (run : RunRow) :
    (sync_scheduled_task_last_status d run).tool_executions = d.tool_executions := by
  unfold sync_scheduled_task_last_status
  repeat' split
  all_goals rfl

theorem applyRunTransition_sessions (d : Db) (cb : AgentCallbackRequest)
    (run : RunRow) (now : Int) :
    (applyRunTransition d cb run now).sessions = d.sessions := by
  unfold applyRunTransition
  rw [sync_sessions]

theorem runStage_sessions (d : Db) (cb : AgentCallbackRequest) (sid : String)
    (now : Int) : (runStage d cb sid now).1.sessions = d.sessions := by
  unfold runStage
  split
  · rfl
  · exact applyRunTransition_sessions _ _ _ _

theorem latestActiveRun_congr (d1 d2 : Db) (sid : String) (h : d1.runs = d2.runs) :
    latestActiveRun d1 sid = latestActiveRun d2 sid := by
  unfold latestActiveRun
  rw [h]

theorem latestActiveRun_mem (db : Db) (sid : String) (run : RunRow)
    (h : latestActiveRun db sid = some run) : run ∈ db.runs := by
  unfold latestActiveRun at h
  cases hs : sortByKeyDesc (fun r => r.created_at)
      (db.runs.filter (fun r =>
        r.session_id = sid && (r.status = "claimed" || r.status = "running"))) with
  | nil => rw [hs] at h; simp at h
  | cons x xs =>
    rw [hs] at h
    injection h with h
    subst h
    have hx : x ∈ sortByKeyDesc (fun r => r.created_at)
        (db.runs.filter (fun r =>
          r.session_id = sid && (r.status = "claimed" || r.status = "running"))) := by
      rw [hs]; exact List.mem_cons_self _ _
    rw [mem_sortByKeyDesc] at hx
    exact List.mem_of_mem_filter hx

theorem find?_map_ite_key {α : Type} {κ : Type} [DecidableEq κ] (key : α → κ)
    (p : κ) (f : α → α) (l : List α) (hf : ∀ x, key (f x) = key x) :
    (l.map (fun x => if key x = p then f x else x)).find? (fun x => key x = p) =
      (l.find? (fun x => key x = p)).map f := by
  induction l with
  | nil => rfl
  | cons x xs ih =>
    by_cases hx : key x = p
    · rw [List.map_cons, if_pos hx, List.find?_cons_of_pos _ (by simp [hf, hx]),
        List.find?_cons_of_pos _ (by simpa using hx)]
      rfl
    · rw [List.map_cons, if_neg hx, List.find?_cons_of_neg _ (by simpa using hx),
        List.find?_cons_of_neg _ (by simpa using hx), ih]

theorem find?_map_constUpdate {α : Type} {κ : Type} [DecidableEq κ] (key : α → κ)
    (p : κ) (c : α) (l : List α) (hc : key c = p)
    (hex : ∃ x ∈ l, key x = p) :
    (l.map (fun x => if key x = p then c else x)).find? (fun x => key x = p) =
      some c := by
  induction l with
  | nil => simp at hex
  | cons x xs ih =>
    by_cases hx : key x = p
    · rw [List.map_cons, if_pos hx, List.find?_cons_of_pos _ (by simpa using hc)]
    · rw [List.map_cons, if_neg hx, List.find?_cons_of_neg _ (by simpa using hx)]
      apply ih
      rcases hex with ⟨y, hy, hyp⟩
      rcases List.mem_cons.mp hy with h | h
      · exact absurd (h ▸ hyp) hx
      · exact ⟨y, h, hyp⟩

theorem applySessionUpdateFields_id (r : SessionRow) (req : SessionUpdateRequest) :
    (applySessionUpdateFields r req).id = r.id := by
  unfold applySessionUpdateFields
  repeat' split
  all_goals rfl

theorem applySessionUpdateFields_status (r : SessionRow) (req : SessionUpdateRequest) :
    (applySessionUpdateFields r req).status =
      match req.status with
      | some v => v
      | none => r.status := by
  unfold applySessionUpdateFields
  repeat' split
  all_goals rfl

theorem find_session_mem (db : Db) (s : String) (sess : SessionRow)
    (h : find_session_by_sdk_id_or_uuid db s = some sess) : sess ∈ db.sessions := by
  unfold find_session_by_sdk_id_or_uuid SessionRepository.get_by_sdk_session_id
    SessionRepository.get_by_id at h
  split at h
  · rename_i heq
    injection h with h
    subst h
    exact List.mem_of_find?_eq_some heq
  · exact List.mem_of_find?_eq_some h

/-- `update_session` on an existing row with no `project_id` change:
the row is re-fetched by primary key, the scalar fields are assigned, the
table is updated in place. -/
theorem update_session_ok (db : Db) (sid : String) (req : SessionUpdateRequest)
    (s₀ : SessionRow) (hs : SessionRepository.get_by_id db sid = some s₀)
    (hp : req.project_id_in_fields_set = false) :
    update_session db sid req = .ok
      ({ db with sessions := db.sessions.map (fun r =>
          if r.id = sid then applySessionUpdateFields r req else r) },
       applySessionUpdateFields s₀ req) := by
  unfold update_session get_session
  rw [hs, hp]
  rfl

/-- A `completed` callback moves the latest active run to `completed`,
stamps `finished_at`, and forces progress to 100. -/
theorem runStage_complete (d2 : Db) (cb : AgentCallbackRequest) (sid : String)
    (now : Int) (run : RunRow)
    (hlat : latestActiveRun d2 sid = some run)
    (hst : cb.status = .completed) :
    (runStage d2 cb sid now).1.runs.find? (fun r => r.id = run.id) =
      some { run with status := "completed", finished_at := some now,
                      progress := 100 } := by
  unfold runStage
  rw [hlat]
  dsimp only
  unfold applyRunTransition
  rw [sync_runs]
  dsimp only
  simp only [hst,
    show (decide (CallbackStatus.completed = CallbackStatus.running)) = false from rfl,
    show (decide (CallbackStatus.completed = CallbackStatus.completed)) = true from rfl,
    show (decide (CallbackStatus.completed = CallbackStatus.failed)) = false from rfl,
    Bool.false_and, Bool.true_or, Bool.or_false, Bool.false_eq_true, if_false,
    eq_self_iff_true, decide_True, if_true, CallbackStatus.value]
  apply find?_map_constUpdate
  · rfl
  · exact ⟨run, latestActiveRun_mem d2 sid run hlat, rfl⟩

set_option maxHeartbeats 2000000 in
/-- **C2.** For a session that is not canceled whose latest active run is
claimed or running, a `completed` callback sets that run's status to
`completed` with `finished_at = now` and progress forced to 100, and sets
the session's status to `completed`. -/
theorem C2_completion_callback (db : Db) (cb : AgentCallbackRequest) (now : Int)
    (sess : SessionRow) (run : RunRow)
    (hfind : find_session_by_sdk_id_or_uuid db cb.session_id = some sess)
    (hnc : ¬ sess.status = "canceled")
    (hst : cb.status = .completed)
    (hrun : latestActiveRun db sess.id = some run) :
    ∃ res, process_agent_callback db cb now = .ok res
      ∧ res.db.runs.find? (fun r => r.id = run.id) =
          some { run with status := "completed", finished_at := some now,
                          progress := 100 }
      ∧ (res.db.sessions.find? (fun s => s.id = sess.id)).map (fun s => s.status) =
          some "completed" := by
  obtain ⟨s₀, hs₀⟩ : ∃ s₀, SessionRepository.get_by_id db sess.id = some s₀ := by
    have hm := find_session_mem db cb.session_id sess hfind
    have hsome : (db.sessions.find? (fun r => r.id = sess.id)).isSome := by
      rw [List.find?_isSome]
      exact ⟨sess, hm, by simp⟩
    exact Option.isSome_iff_exists.mp hsome
  have hbne : (decide (sess.status ≠ "canceled")) = true := decide_eq_true hnc
  unfold process_agent_callback
  rw [hfind]
  dsimp only
  rw [if_neg hnc]
  simp only [hst, hbne,
    show (decide (CallbackStatus.completed = CallbackStatus.completed)) = true from rfl,
    show (decide (CallbackStatus.completed = CallbackStatus.failed)) = false from rfl,
    Bool.true_or, Bool.or_false, Bool.and_true, Bool.true_and, Bool.or_true,
    eq_self_iff_true, decide_True, if_true, CallbackStatus.value]
  rw [update_session_ok db sess.id _ s₀ hs₀ rfl]
  dsimp only
  refine ⟨_, rfl, ?_, ?_⟩
  · refine runStage_complete _ cb sess.id now run ?_ hst
    refine (latestActiveRun_congr _ db sess.id ?_).trans hrun
    exact (messageStage_runs _ _ _ _).trans rfl
  · rw [runStage_sessions, messageStage_sessions]
    dsimp only
    rw [find?_map_ite_key (fun s : SessionRow => s.id) sess.id _ _
      (fun x => applySessionUpdateFields_id x _)]
    rw [show db.sessions.find? (fun r => r.id = sess.id) = some s₀ from hs₀]
    simp [applySessionUpdateFields_status]

def c2Session : SessionRow := { id := "s1", user_id := "u1", status := "running" }

def c2Run : RunRow := { id := 1, session_id := "s1", status := "running", created_at := 10 }

def c2Db : Db := { sessions := [c2Session], runs := [c2Run] }

def c2Callback : AgentCallbackRequest :=
  { session_id := "s1", status := .completed, progress := some 100 }

/-- Witness for C2: a concrete running session whose run completes. -/
theorem C2_completion_callback_witness :
    ∃ res, process_agent_callback c2Db c2Callback 99 = .ok res
      ∧ res.db.runs.find? (fun r => r.id = 1) =
          some { c2Run with status := "completed", finished_at := some 99,
                            progress := 100 }
      ∧ (res.db.sessions.find? (fun s => s.id = "s1")).map (fun s => s.status) =
          some "completed" :=
  C2_completion_callback c2Db c2Callback 99 c2Session c2Run rfl (by decide) rfl rfl

/-! ## Claim C5: commit granularity of callback processing -/

theorem update_session_ok_msgs (db : Db) (sid : String) (req : SessionUpdateRequest)
    (db1 : Db) (s1 : SessionRow) (h : update_session db sid req = .ok (db1, s1)) :
    db1.messages = db.messages ∧ db1.tool_executions = db.tool_executions := by
  unfold update_session get_session at h
  repeat' split at h
  all_goals try dsimp only at h
  all_goals try exact Except.noConfusion h
  all_goals injection h with h
  all_goals injection h with h1 h2
  all_goals subst h1
  all_goals exact ⟨rfl, rfl⟩

theorem applyRunTransition_messages (d : Db) (cb : AgentCallbackRequest)
    (run : RunRow) (now : Int) :
    (applyRunTransition d cb run now).messages = d.messages := by
  unfold applyRunTransition
  rw [sync_messages]

theorem applyRunTransition_tools (d : Db) (cb : AgentCallbackRequest)
    (run : RunRow) (now : Int) :
    (applyRunTransition d cb run now).tool_executions = d.tool_executions := by
  unfold applyRunTransition
  rw [sync_tools]

theorem runStage_messages (d : Db) (cb : AgentCallbackRequest) (sid : String)
    (now : Int) : (runStage d cb sid now).1.messages = d.messages := by
  unfold runStage
  split
  · rfl
  · exact applyRunTransition_messages _ _ _ _

theorem runStage_tools (d : Db) (cb : AgentCallbackRequest) (sid : String)
    (now : Int) : (runStage d cb sid now).1.tool_executions = d.tool_executions := by
  unfold runStage
  split
  · rfl
  · exact applyRunTransition_tools _ _ _ _

theorem runStage_commits (d : Db) (cb : AgentCallbackRequest) (sid : String)
    (now : Int) : ∀ t ∈ (runStage d cb sid now).2, t = (runStage d cb sid now).1 := by
  unfold runStage
  split
  · intro t ht
    exact absurd ht (by simp)
  · intro t ht
    rcases List.mem_singleton.mp ht with h
    exact h

/-- Within the message stage, every committed snapshot already carries the
stage's final messages and tool executions (the usage commit adds only a
usage log). -/
theorem messageStage_commits (d : Db) (sid : String) (nm : Option JVal) (now : Int) :
    ∀ t ∈ (messageStage d sid nm now).2,
      t.messages = (messageStage d sid nm now).1.messages
      ∧ t.tool_executions = (messageStage d sid nm now).1.tool_executions := by
  unfold messageStage
  cases nm with
  | none => intro t ht; exact absurd ht (by simp)
  | some v =>
    cases v with
    | null => intro t ht; exact absurd ht (by simp)
    | bool b => intro t ht; exact absurd ht (by simp)
    | num n => intro t ht; exact absurd ht (by simp)
    | str s => intro t ht; exact absurd ht (by simp)
    | arr xs => intro t ht; exact absurd ht (by simp)
    | obj m =>
      by_cases ht : pyTruthy (.obj m) = true
      · cases hu : extract_and_persist_usage (persist_message_and_tools d sid m now) sid m with
        | none =>
          simp only [if_pos ht, hu]
          intro t htm
          rcases List.mem_singleton.mp htm with h
          subst h
          exact ⟨rfl, rfl⟩
        | some d2 =>
          simp only [if_pos ht, hu]
          intro t htm
          rcases List.mem_cons.mp htm with h | h
          · subst h
            exact ⟨((usage_some_proj _ _ _ _ hu).2.2.1).symm,
                   ((usage_some_proj _ _ _ _ hu).2.2.2).symm⟩
          · rcases List.mem_singleton.mp h with h
            subst h
            exact ⟨rfl, rfl⟩
      · simp only [if_neg ht]
        intro t htm
        exact absurd htm (by simp)

/-- The conditional session update at the head of `process_agent_callback`
leaves messages and tool executions untouched in either branch. -/
theorem updateOrId_msgs (db : Db) (sid : String) (req : SessionUpdateRequest)
    (b : Bool) (s : SessionRow) (db1 : Db) (s1 : SessionRow)
    (h : (if b = true then update_session db sid req else .ok (db, s))
        = .ok (db1, s1)) :
    db1.messages = db.messages ∧ db1.tool_executions = db.tool_executions := by
  cases b with
  | true =>
    rw [if_pos rfl] at h
    exact update_session_ok_msgs _ _ _ _ _ h
  | false =>
    rw [if_neg (by simp)] at h
    injection h with h
    injection h with h1 h2
    rw [← h1]
    exact ⟨rfl, rfl⟩

/-- Membership in the conditional singleton commit list of the session
update. -/
theorem commits1_mem (b : Bool) (db1 : Db) (t : Db)
    (h : t ∈ if b = true then [db1] else ([] : List Db)) : t = db1 := by
  cases b with
  | true =>
    rw [if_pos rfl] at h
    exact List.mem_singleton.mp h
  | false =>
    rw [if_neg (by simp)] at h
    exact absurd h (by simp)

/-- Every snapshot committed by the message and run stages already carries
the final messages and tool executions. -/
theorem stages_commits_atomic (db1 : Db) (cb : AgentCallbackRequest) (sid : String)
    (now : Int) :
    ∀ t ∈ (messageStage db1 sid cb.new_message now).2 ++
          (runStage (messageStage db1 sid cb.new_message now).1 cb sid now).2,
      t.messages =
        (runStage (messageStage db1 sid cb.new_message now).1 cb sid now).1.messages
      ∧ t.tool_executions =
        (runStage (messageStage db1 sid cb.new_message now).1 cb sid now).1.tool_executions := by
  intro t ht
  rcases List.mem_append.mp ht with h | h
  · have hms := messageStage_commits db1 sid cb.new_message now t h
    rw [runStage_messages, runStage_tools]
    exact hms
  · have hrs := runStage_commits _ cb sid now t h
    rw [hrs]
    exact ⟨rfl, rfl⟩

def c5Session : SessionRow := { id := "s1", user_id := "u1", status := "running" }

def c5Run : RunRow :=
  { id := 1, session_id := "s1", status := "running", progress := 10, created_at := 10 }

def c5Db : Db := { sessions := [c5Session], runs := [c5Run] }

def c5Message : JVal :=
  .obj [("_type", .str "AssistantMessage"),
        ("content", .arr [.obj [("_type", .str "TextBlock"), ("text", .str "hello")]])]

def c5Callback : AgentCallbackRequest :=
  { session_id := "s1", status := .running, progress := some 50,
    new_message := some c5Message }

/-- **C5 (counterexample).** The claim says one callback's effects commit as a
single transaction, i.e. every committed snapshot shows either none of the
effects (the initial state) or all of them (the final state).  A running
callback carrying an assistant message refutes this: the snapshot committed by
`_persist_message_and_tools` already contains the new message but not yet the
run's progress update, so it differs from both the initial and the final
database. -/
theorem C5_counterexample :
    ∃ res, process_agent_callback c5Db c5Callback 60 = .ok res
      ∧ ∃ t ∈ res.commits, ¬ (t = c5Db ∨ t = res.db) := by
  refine ⟨_, rfl, ?_⟩
  refine ⟨_, List.mem_cons_self _ _, ?_⟩
  intro hor
  rcases hor with hEq | hEq
  · exact absurd (congrArg (fun d : Db => d.messages.length) hEq) (by decide)
  · exact absurd (congrArg (fun d : Db =>
      (d.runs.find? (fun r => r.id = 1)).map (fun r => r.progress)) hEq) (by decide)

/-- **C5 (amended).** What the code does guarantee: the message and its tool
executions commit atomically with respect to each other — every committed
snapshot carries either the pre-callback messages and tool executions or the
final ones, never a mixture.  (The session update, the message+tools write,
the usage log, and the run transition still land in separate commits, as the
counterexample shows.) -/
theorem C5_commit_granularity (db : Db) (cb : AgentCallbackRequest) (now : Int)
    (res : ProcessResult) (h : process_agent_callback db cb now = .ok res) :
    ∀ t ∈ res.commits,
      (t.messages = db.messages ∧ t.tool_executions = db.tool_executions) ∨
      (t.messages = res.db.messages ∧ t.tool_executions = res.db.tool_executions) := by
  unfold process_agent_callback at h
  cases hfind : find_session_by_sdk_id_or_uuid db cb.session_id with
  | none =>
    rw [hfind] at h
    dsimp only at h
    injection h with h
    subst h
    intro t ht
    exact absurd ht (by simp)
  | some sess =>
    rw [hfind] at h
    dsimp only at h
    by_cases hc : sess.status = "canceled"
    · rw [if_pos hc] at h
      injection h with h
      subst h
      intro t ht
      exact absurd ht (by simp)
    · rw [if_neg hc] at h
      split at h
      · exact Except.noConfusion h
      · rename_i db1 sess1 heq
        have hbase : db1.messages = db.messages
            ∧ db1.tool_executions = db.tool_executions :=
          updateOrId_msgs _ _ _ _ _ _ _ heq
        injection h with h
        intro t ht
        rw [← congrArg ProcessResult.commits h] at ht
        rw [← congrArg ProcessResult.db h]
        dsimp only at ht ⊢
        rcases List.mem_append.mp ht with h1 | h1
        · rcases List.mem_append.mp h1 with h2 | h2
          · left
            have ht1 : t = db1 := commits1_mem _ _ _ h2
            rw [ht1]
            exact hbase
          · right
            have := stages_commits_atomic db1 cb sess.id now t
              (List.mem_append.mpr (Or.inl h2))
            exact this
        · right
          exact stages_commits_atomic db1 cb sess.id now t
            (List.mem_append.mpr (Or.inr h1))

/-- Witness for the amended C5 at a concrete callback. -/
theorem C5_commit_granularity_witness :
    ∃ res, process_agent_callback c5Db c5Callback 60 = .ok res
      ∧ ∀ t ∈ res.commits,
        (t.messages = c5Db.messages ∧ t.tool_executions = c5Db.tool_executions) ∨
        (t.messages = res.db.messages ∧ t.tool_executions = res.db.tool_executions) :=
  ⟨_, rfl, C5_commit_granularity c5Db c5Callback 60 _ rfl⟩

end PocoAgent
